import Mathlib

/-!
Verification development for the libhtp2 HTTP parser core.

The definitions below are shallow embeddings of the Rust source files
`src/parsers.rs`, `src/util.rs`, `src/response.rs`,
`src/htp_request_generic.rs` and `src/connection_parser.rs`.
Nat strings are modelled as `List Nat` (each element a byte value),
machine integers as `Nat`/`Int` with explicit bounds where overflow or
parse-range limits matter.  Functions that the source code implements
with `nom` combinators are translated combinator by combinator into
`List.takeWhile`/`List.dropWhile`-style list programs.

Pieces of the repository that the source tree does not contain (the
byte-string `Bstr` comparison helpers, the header `Table`, the
transaction bookkeeping in `transaction.rs`) are modelled from the
specification and are marked `Modelled from the spec:` in their doc
comments.
-/

namespace Htp

/- Bytes are `Nat`s, kept in the range 0..255 by construction of inputs;
byte strings are `List Nat`. -/

/-- ASCII lowercase conversion (Rust `u8::to_ascii_lowercase`). -/
def toLowerB (c : Nat) : Nat := if 65 ≤ c ∧ c ≤ 90 then c + 32 else c

/-- nom's `character::is_space`: space or horizontal tab only. -/
def isNomSpace (c : Nat) : Bool := c == 32 || c == 9

/-- `util::is_space`: SP, HT, CR, LF, VT, FF (src/util.rs line 230). -/
def isSpaceB (c : Nat) : Bool :=
  c == 32 || c == 9 || c == 13 || c == 10 || c == 11 || c == 12

/-- Rust `u8::is_ascii_digit`. -/
def isDigitB (c : Nat) : Bool := decide (48 ≤ c ∧ c ≤ 57)

/-- Rust `u8::is_ascii_hexdigit`. -/
def isHexB (c : Nat) : Bool :=
  isDigitB c || decide (65 ≤ c ∧ c ≤ 70) || decide (97 ≤ c ∧ c ≤ 102)

/-- Numeric value of a run of ASCII decimal digits
(Rust `i64::from_str_radix(_, 10)` / `u16::from_str_radix(_, 10)` on an
all-digit string, before the range check). -/
def digitsToNat (ds : List Nat) : Nat := ds.foldl (fun a c => 10 * a + (c - 48)) 0

/-- Numeric value of one ASCII hex digit. -/
def hexVal (c : Nat) : Nat :=
  if isDigitB c then c - 48 else if c ≤ 70 then c - 55 else c - 87

/-- Numeric value of a run of ASCII hex digits
(Rust `i32::from_str_radix(_, 16)` on an all-hex string, before the range check). -/
def hexToNat (ds : List Nat) : Nat := ds.foldl (fun a c => 16 * a + hexVal c) 0

/-- Case-insensitive byte-string equality (Rust `eq_ignore_ascii_case`,
`Bstr::cmp_nocase` returning `Ordering::Equal`). -/
def eqNoCase (a b : List Nat) : Bool := a.map toLowerB == b.map toLowerB

/-- Does `s` start with `pat`, case-insensitively (nom `tag_no_case`)? -/
def leadsWithNoCase (pat s : List Nat) : Bool :=
  decide (pat.length ≤ s.length) && ((s.take pat.length).map toLowerB == pat.map toLowerB)

/-- Case-insensitive substring search (`Bstr::index_of_nocase`,
`Bstr::index_of_nocase_nozero` on NUL-free data).
Modelled from the spec: the `Bstr` implementation is not under `src/`;
the spec states header/value matching is case-insensitive substring search. -/
def containsNoCase (hay pat : List Nat) : Bool :=
  match hay with
  | [] => leadsWithNoCase pat []
  | _ :: rest => leadsWithNoCase pat hay || containsNoCase rest pat

/-!  ### `util::ascii_digits` and `util::hex_digits` (src/util.rs lines 323-352) -/

/-- `util::ascii_digits`: skip SP/HT, collect non-digit "leading data",
require at least one decimal digit (`digit1`), skip trailing SP/HT.
Returns `(trailing data, (leading data, digits))`, or `none` when the
input has no digit at all (`digit1` fails). -/
def asciiDigits (input : List Nat) : Option (List Nat × (List Nat × List Nat)) :=
  let s1 := input.dropWhile isNomSpace
  let leading := s1.takeWhile (fun c => !(isDigitB c))
  let s2 := s1.dropWhile (fun c => !(isDigitB c))
  let digits := s2.takeWhile isDigitB
  if digits.isEmpty then none
  else some ((s2.drop digits.length).dropWhile isNomSpace, (leading, digits))

/-- `util::hex_digits`: skip SP/HT, require at least one hex digit
(`take_while1`), skip trailing SP/HT.  Returns `(trailing data, digits)`. -/
def hexDigits (input : List Nat) : Option (List Nat × List Nat) :=
  let s1 := input.dropWhile isNomSpace
  let digits := s1.takeWhile isHexB
  if digits.isEmpty then none
  else some ((s1.drop digits.length).dropWhile isNomSpace, digits)

/-!  ### `parsers::parse_status`, `parsers::parse_content_length`,
`parsers::parse_chunked_length` (src/parsers.rs) -/

/-- `parsers::parse_status` (src/parsers.rs lines 295-310): `ascii_digits`,
reject leading or trailing junk, parse as `u16` (fails above 65535), accept
100..=999. -/
def parse_status (status : List Nat) : Option Nat :=
  match asciiDigits status with
  | none => none
  | some (trailing, leading, digits) =>
    if trailing.length > 0 ∨ leading.length > 0 then none
    else
      let n := digitsToNat digits
      if n > 65535 then none
      else if 100 ≤ n ∧ n ≤ 999 then some n else none

/-- Warnings `parse_content_length` can log (src/parsers.rs lines 53-69). -/
structure ClWarnings where
  extra_data_start : Bool
  extra_data_end : Bool
deriving Repr, DecidableEq

/-- `parsers::parse_content_length` (src/parsers.rs lines 50-78), together
with the warnings it would log when a connection parser is supplied.
The number parses as `i64` (fails above 2^63 - 1). -/
def parse_content_length_full (input : List Nat) : Option Nat × ClWarnings :=
  match asciiDigits input with
  | none => (none, ⟨false, false⟩)
  | some (trailing, leading, digits) =>
    let w : ClWarnings := ⟨leading.length > 0, trailing.length > 0⟩
    let n := digitsToNat digits
    if n ≤ 2 ^ 63 - 1 then (some n, w) else (none, w)

/-- `parsers::parse_content_length` result alone. -/
def parse_content_length (input : List Nat) : Option Nat :=
  (parse_content_length_full input).1

/-- `parsers::parse_chunked_length` (src/parsers.rs lines 84-96):
`hex_digits`, then the empty-line check, then parse as `i32`
(fails above 2^31 - 1).  `Except.error` is "Invalid Chunk Length". -/
def parse_chunked_length (input : List Nat) : Except Unit (Option Nat) :=
  match hexDigits input with
  | some (trailing, digits) =>
    if trailing.length == 0 && digits.length == 0 then Except.ok none
    else if hexToNat digits ≤ 2 ^ 31 - 1 then Except.ok (some (hexToNat digits))
    else Except.error ()
  | none => Except.error ()

/-!  ### `util::treat_response_line_as_body` (src/util.rs lines 1094-1101) -/

/-- `util::treat_response_line_as_body`: the line is body data iff
`(opt(take_is_space), tag_no_case("http"))` fails, i.e. iff after skipping
`is_space` bytes the line does not start with case-insensitive `http`. -/
def treat_response_line_as_body (data : List Nat) : Bool :=
  !(leadsWithNoCase [104, 116, 116, 112] (data.dropWhile isSpaceB))

/-- `util::chomp` (src/util.rs lines 215-225): drop trailing CR/LF bytes. -/
def chomp (data : List Nat) : List Nat :=
  ((data.reverse.dropWhile (fun c => c == 10 || c == 13))).reverse

/-- `util::take_till_lf` (src/util.rs lines 1198-1205): split the input
after the first LF, returning `(remaining, line-including-LF)`;
`none` (nom `Incomplete`) when the input contains no LF. -/
def takeTillLf (data : List Nat) : Option (List Nat × List Nat) :=
  let pre := data.takeWhile (fun c => c != 10)
  if pre.length == data.length then none
  else some (data.drop (pre.length + 1), data.take (pre.length + 1))

/-!  ### URL decoding (src/util.rs lines 424-439 and 855-1086) -/

/-- `config::HtpUrlEncodingHandling`.  Modelled from the spec: the config
module is not under `src/`; the spec enumerates
PROCESS_INVALID | REMOVE_PERCENT | PRESERVE_PERCENT. -/
inductive HtpUrlEncodingHandling where
  | REMOVE_PERCENT
  | PROCESS_INVALID
  | PRESERVE_PERCENT
deriving DecidableEq, Repr

/-- The `HTP_URLEN_*` anomaly flags `urldecode_ex` can emit. -/
structure UrlenFlags where
  invalid_encoding : Bool := false
  encoded_nul : Bool := false
  raw_nul : Bool := false
  overlong_u : Bool := false
  half_full_range : Bool := false
deriving DecidableEq, Repr

/-- Bitwise-or of two flag sets (`|=`). -/
def UrlenFlags.union (a b : UrlenFlags) : UrlenFlags :=
  ⟨a.1 || b.1, a.2 || b.2, a.3 || b.3, a.4 || b.4, a.5 || b.5⟩

/-- `config::DecoderConfig`, restricted to the fields `urldecode_ex` reads.
Modelled from the spec: the config module is not under `src/`; the spec
lists these decoder options.  `HtpUnwanted` expected-status codes are
modelled as `Nat` with `0` playing `IGNORE`.  `bestfit_map.get` is an
abstract two-byte lookup function. -/
structure DecoderConfig where
  u_encoding_decode : Bool
  url_encoding_invalid_handling : HtpUrlEncodingHandling
  u_encoding_unwanted : Nat
  url_encoding_invalid_unwanted : Nat
  nul_encoded_unwanted : Nat
  nul_encoded_terminates : Bool
  nul_raw_unwanted : Nat
  nul_raw_terminates : Bool
  plusspace_decode : Bool
  bestfit_map : Nat → Nat → Nat

/-- `util::x2c` (src/util.rs lines 424-439): hex-decode two bytes,
"happily converting invalid input" with wrapping `u8` arithmetic
(modelled by explicit `% 256`). -/
def x2c (c1 c2 : Nat) : Nat :=
  let hi := if 65 ≤ c1 then (Nat.land c1 0xdf + 256 - 65 + 10) % 256 else (c1 + 256 - 48) % 256
  let lo := if 65 ≤ c2 then (Nat.land c2 0xdf + 256 - 65 + 10) % 256 else (c2 + 256 - 48) % 256
  (hi * 16 % 256 + lo) % 256

/-- `util::decode_u_encoding_params` (src/util.rs lines 499-518), applied to
the four hex-candidate bytes. -/
def decode_u_encoding_params (cfg : DecoderConfig) (a b c d : Nat) : Nat × UrlenFlags :=
  let c1 := x2c a b
  let c2 := x2c c d
  if c1 = 0 then (c2, { overlong_u := true })
  else
    let flags : UrlenFlags := if c1 = 0xff ∧ c2 ≤ 0xef then { half_full_range := true } else {}
    (cfg.bestfit_map c1 c2, flags)

/-- The result of one alternative of `urldecode_ex`'s percent parser:
how many bytes after the `'%'` it consumed, the decoded byte, the
expected status code, flags, and whether the byte is placed in the
output. -/
structure PctCore where
  consumed : Nat
  byte : Nat
  code : Nat
  flags : UrlenFlags
  ins : Bool

/-- Like `PctCore` but with the remaining input made explicit
(the encoded-NUL check can truncate it to `[]`). -/
structure PctStep where
  rest : List Nat
  byte : Nat
  code : Nat
  flags : UrlenFlags
  ins : Bool

/-- The `alt` inside `util::url_decode_percent` (src/util.rs lines
978-997): `url_decode_valid_uencoding`, `url_decode_invalid_uencoding`,
`url_decode_valid_hex`, `url_decode_invalid_hex` and the
not-enough-data fallback, applied to the input after the `'%'`. -/
def url_decode_percent_core (cfg : DecoderConfig) (input : List Nat) : PctCore :=
  match input with
  | c :: rest =>
    if c = 117 ∨ c = 85 then
      -- 'u' / 'U': uencoded alternatives
      if cfg.u_encoding_decode then
        match rest with
        | h1 :: h2 :: h3 :: h4 :: _ =>
          if isHexB h1 && isHexB h2 && isHexB h3 && isHexB h4 then
            -- url_decode_valid_uencoding
            let (b, f) := decode_u_encoding_params cfg h1 h2 h3 h4
            ⟨5, b, cfg.u_encoding_unwanted, f, true⟩
          else
            -- url_decode_invalid_uencoding, four bytes available
            let code := if cfg.url_encoding_invalid_unwanted ≠ 0 then
                cfg.url_encoding_invalid_unwanted else cfg.u_encoding_unwanted
            match cfg.url_encoding_invalid_handling with
            | .REMOVE_PERCENT => ⟨0, 37, code, { invalid_encoding := true }, false⟩
            | .PROCESS_INVALID =>
              let (b, f) := decode_u_encoding_params cfg h1 h2 h3 h4
              ⟨5, b, code, UrlenFlags.union { invalid_encoding := true } f, true⟩
            | .PRESERVE_PERCENT => ⟨0, 37, code, { invalid_encoding := true }, true⟩
        | _ =>
          -- not even four bytes after the 'u': every uencoded and hex
          -- alternative fails, the final fallback fires
          ⟨0, 37, cfg.url_encoding_invalid_unwanted, { invalid_encoding := true },
            !(cfg.url_encoding_invalid_handling == HtpUrlEncodingHandling.REMOVE_PERCENT)⟩
      else
        -- u_encoding_decode off: the 'u' alternative succeeds without
        -- consuming and emits a literal '%'
        ⟨0, 37, 0, {}, true⟩
    else
      match input with
      | a :: b :: _ =>
        if isHexB a && isHexB b then
          -- url_decode_valid_hex
          ⟨2, x2c a b, 0, {}, true⟩
        else
          -- url_decode_invalid_hex
          match cfg.url_encoding_invalid_handling with
          | .REMOVE_PERCENT =>
            ⟨0, 37, cfg.url_encoding_invalid_unwanted, { invalid_encoding := true }, false⟩
          | .PROCESS_INVALID =>
            ⟨2, x2c a b, cfg.url_encoding_invalid_unwanted, { invalid_encoding := true }, true⟩
          | .PRESERVE_PERCENT =>
            ⟨0, 37, cfg.url_encoding_invalid_unwanted, { invalid_encoding := true }, true⟩
      | _ =>
        -- fewer than two bytes: not-enough-data fallback
        ⟨0, 37, cfg.url_encoding_invalid_unwanted, { invalid_encoding := true },
          !(cfg.url_encoding_invalid_handling == HtpUrlEncodingHandling.REMOVE_PERCENT)⟩
  | [] =>
    ⟨0, 37, cfg.url_encoding_invalid_unwanted, { invalid_encoding := true },
      !(cfg.url_encoding_invalid_handling == HtpUrlEncodingHandling.REMOVE_PERCENT)⟩

/-- `util::url_decode_percent` (src/util.rs lines 973-1011) minus the
leading `'%'`, which the caller has consumed: the `alt` above followed
by the encoded-NUL check (lines 998-1009). -/
def url_decode_percent (cfg : DecoderConfig) (input : List Nat) : PctStep :=
  match url_decode_percent_core cfg input with
  | ⟨consumed, byte, code0, flags0, ins⟩ =>
    if byte = 0 then
      let flags := flags0.union { encoded_nul := true }
      let code := if cfg.nul_encoded_unwanted ≠ 0 then cfg.nul_encoded_unwanted else code0
      if cfg.nul_encoded_terminates then ⟨[], byte, code, flags, false⟩
      else ⟨input.drop consumed, byte, code, flags, ins⟩
    else ⟨input.drop consumed, byte, code0, flags0, ins⟩

/-- `util::urldecode_ex` (src/util.rs lines 1064-1086): `fold_many0` over
percent, plus and unencoded-byte parsers.  Returns the decoded output,
the accumulated flags, and the last non-IGNORE expected status code. -/
def urldecode_ex (cfg : DecoderConfig) (input : List Nat) : List Nat × UrlenFlags × Nat :=
  match input with
  | [] => ([], {}, 0)
  | b :: rest =>
    if b = 37 then
      -- url_decode_percent
      let s := url_decode_percent cfg rest
      let (out, fl, code) := urldecode_ex cfg s.rest
      ((if s.ins then s.byte :: out else out), s.flags.union fl,
        if code ≠ 0 then code else s.code)
    else if b = 43 then
      -- url_decode_plus
      let byte := if cfg.plusspace_decode then 32 else b
      let (out, fl, code) := urldecode_ex cfg rest
      (byte :: out, fl, code)
    else if b = 0 then
      -- url_parse_unencoded_byte, raw NUL
      if cfg.nul_raw_terminates then ([], { raw_nul := true }, cfg.nul_raw_unwanted)
      else
        let (out, fl, code) := urldecode_ex cfg rest
        (0 :: out, UrlenFlags.union { raw_nul := true } fl,
          if code ≠ 0 then code else cfg.nul_raw_unwanted)
    else
      -- url_parse_unencoded_byte, plain byte
      let (out, fl, code) := urldecode_ex cfg rest
      (b :: out, fl, code)
termination_by input.length
decreasing_by
  · have hle : (url_decode_percent cfg rest).rest.length ≤ rest.length := by
      unfold url_decode_percent
      repeat' split
      all_goals (simp only [List.length_drop, List.length_nil]; omega)
    simp only [List.length_cons]
    omega
  all_goals simp [Nat.lt_succ_self]

/-- `util::urldecode_inplace` (src/util.rs lines 855-864): replace the
input with the decoded output (`urldecode_ex` never fails, so the
`Result` is always `Ok`). -/
def urldecode_inplace (cfg : DecoderConfig) (input : List Nat) : List Nat :=
  (urldecode_ex cfg input).1

/-!  ### Request header coalescing (src/htp_request_generic.rs lines 19-81) -/

/-- A parsed header: `(name, value, flags)`.  Of the header flag bits only
FIELD_REPEATED is touched by the processing modelled here, so the flag
set is carried as the single `repeated` bit. -/
structure Header where
  name : List Nat
  value : List Nat
  repeated : Bool
deriving DecidableEq, Repr

/-- Log codes emitted by the functions modelled in this file. -/
inductive LogCode where
  | INVALID_RESPONSE_CHUNK_LEN
  | CONTINUE_ALREADY_SEEN
  | SWITCHING_PROTO_WITH_CONTENT_LENGTH
  | RESPONSE_ABNORMAL_TRANSFER_ENCODING
  | RESPONSE_CHUNKED_OLD_PROTO
  | INVALID_CONTENT_LENGTH_FIELD_IN_RESPONSE
  | RESPONSE_MULTIPART_BYTERANGES
  | CONTENT_LENGTH_EXTRA_DATA_START
  | CONTENT_LENGTH_EXTRA_DATA_END
  | RESPONSE_FIELD_TOO_LONG
  | DUPLICATE_CONTENT_LENGTH_FIELD_IN_REQUEST
  | REQUEST_HEADER_REPETITION
  | PARSER_STATE_ERROR
  | ZERO_LENGTH_DATA_CHUNKS
  | RESPONSE_BODY_UNEXPECTED
deriving DecidableEq, Repr

/-- First header whose name matches case-insensitively.
Modelled from the spec: the header `Table` (`get_nocase`,
`get_nocase_nozero`) is not under `src/`; the spec states the header
table is an ordered case-insensitive map. -/
def getNocase (hs : List Header) (key : List Nat) : Option Header :=
  hs.find? (fun h => eqNoCase h.name key)

/-- Replace the first header whose name matches `name` case-insensitively
(the in-place mutation through `get_nocase_mut`). -/
def updateFirstNocase (hs : List Header) (name : List Nat) (f : Header → Header) :
    List Header :=
  match hs with
  | [] => []
  | h :: t => if eqNoCase h.name name then f h :: t else h :: updateFirstNocase t name f

/-- The bytes of `"Content-Length"`. -/
def contentLengthBytes : List Nat :=
  [67, 111, 110, 116, 101, 110, 116, 45, 76, 101, 110, 103, 116, 104]

/-- The header-processing state of one request transaction: stored
headers, the transaction-wide repetition counter, and the warnings
logged so far. -/
structure ReqHdrState where
  request_headers : List Header
  req_header_repetitions : Nat
  warnings : List LogCode
deriving DecidableEq, Repr

/-- `htp_connp_t::process_request_header_generic`
(src/htp_request_generic.rs lines 19-81), applied to an already parsed
header `(name, value)` (the `parse_request_header_generic` line-parsing
step is factored out as the arguments).  Coalesces repeated headers,
tracks the repetition counter with its cut-off at 64, special-cases
Content-Length, and logs the repetition / ambiguous-C-L warnings. -/
def process_request_header_generic (st : ReqHdrState) (name value : List Nat) :
    ReqHdrState :=
  match getNocase st.request_headers name with
  | some h_existing =>
    -- (repeated, update_reps, drop) selection
    if !h_existing.repeated ∨ st.req_header_repetitions < 64 then
      let warnRep := !h_existing.repeated
      let updateReps := h_existing.repeated
      let clCase := eqNoCase name contentLengthBytes
      let f : Header → Header := fun h =>
        let h := { h with repeated := true }
        if clCase then h else { h with value := h.value ++ [44, 32] ++ value }
      let clWarn : List LogCode :=
        if clCase then
          let existing_cl := parse_content_length h_existing.value
          let new_cl := parse_content_length value
          if existing_cl == none || new_cl == none || existing_cl ≠ new_cl then
            [.DUPLICATE_CONTENT_LENGTH_FIELD_IN_REQUEST]
          else []
        else []
      { request_headers := updateFirstNocase st.request_headers name f,
        req_header_repetitions :=
          st.req_header_repetitions + (if updateReps then 1 else 0),
        warnings := st.warnings ++ clWarn
          ++ (if warnRep then [.REQUEST_HEADER_REPETITION] else []) }
    else
      -- repetition counter exhausted: silently drop
      st
  | none =>
    { st with request_headers := st.request_headers ++ [⟨name, value, false⟩] }

/-- Process `N` repetitions of header `name` with the given values,
starting from an empty transaction. -/
def processHeaderRepetitions (name : List Nat) (vs : List (List Nat)) : ReqHdrState :=
  vs.foldl (fun st v => process_request_header_generic st name v) ⟨[], 0, []⟩

/-- `", "`-joining of the claim: `v1 + ", " + v2 + ... + ", " + vN`. -/
def joinComma : List (List Nat) → List Nat
  | [] => []
  | [v] => v
  | v :: vs => v ++ [44, 32] ++ joinComma vs

/-!  ### The response (outbound) state machine (src/response.rs,
src/connection_parser.rs) -/

/-- `connection_parser::State` (src/connection_parser.rs lines 15-35). -/
inductive State where
  | NONE
  | IDLE
  | LINE
  | HEADERS
  | BODY_CHUNKED_DATA_END
  | BODY_CHUNKED_DATA
  | BODY_CHUNKED_LENGTH
  | BODY_DETERMINE
  | FINALIZE
  | PROTOCOL
  | CONNECT_CHECK
  | CONNECT_PROBE_DATA
  | CONNECT_WAIT_RESPONSE
  | BODY_IDENTITY
  | IGNORE_DATA_AFTER_HTTP_0_9
  | BODY_IDENTITY_STREAM_CLOSE
  | BODY_IDENTITY_CL_KNOWN
deriving DecidableEq, Repr

/-- `connection_parser::HtpStreamState` (src/connection_parser.rs lines 42-51). -/
inductive HtpStreamState where
  | NEW
  | OPEN
  | CLOSED
  | ERROR
  | TUNNEL
  | DATA_OTHER
  | STOP
  | DATA
deriving DecidableEq, Repr

/-- The relevant constructors of `HtpStatus` (lib.rs `Status`). -/
inductive HtpStatus where
  | ERROR
  | DECLINED
  | OK
  | DATA
  | DATA_OTHER
  | STOP
  | DATA_BUFFER
deriving DecidableEq, Repr

/-- A state-handler outcome: Rust `Result<(), HtpStatus>`. -/
inductive StepRes where
  | ok
  | err (e : HtpStatus)
deriving DecidableEq, Repr

/-- The request methods this development distinguishes
(`util::convert_to_method`, src/util.rs lines 260-300, restricted to
the constructors the response machine inspects plus representatives). -/
inductive HtpMethod where
  | GET
  | HEAD
  | CONNECT
  | UNKNOWN
deriving DecidableEq, Repr

/-- `HtpProtocol`.  Modelled from the spec: the transaction module is not
under `src/`; the spec lists V0_9, V1_0, V1_1, INVALID, UNKNOWN, and
the machine compares protocols with `<` where
INVALID < UNKNOWN < V0_9 < V1_0 < V1_1 (the numeric enum values of the
C library). -/
inductive HtpProtocol where
  | INVALID
  | UNKNOWN
  | V0_9
  | V1_0
  | V1_1
deriving DecidableEq, Repr

/-- Numeric value backing `HtpProtocol`'s ordering. -/
def HtpProtocol.num : HtpProtocol → Int
  | .INVALID => -2
  | .UNKNOWN => -1
  | .V0_9 => 9
  | .V1_0 => 100
  | .V1_1 => 101

/-- The `<` comparison on protocols. -/
def protoLt (a b : HtpProtocol) : Bool := decide (a.num < b.num)

/-- `HtpTransferCoding` (spec §3: UNKNOWN, IDENTITY, CHUNKED, NO_BODY). -/
inductive HtpTransferCoding where
  | UNKNOWN
  | IDENTITY
  | CHUNKED
  | NO_BODY
deriving DecidableEq, Repr

/-- `HtpResponseProgress`. -/
inductive HtpResponseProgress where
  | NOT_STARTED
  | GAP
  | LINE
  | HEADERS
  | BODY
  | TRAILER
  | COMPLETE
deriving DecidableEq, Repr

/-- Transaction anomaly flags touched by the modelled fragment. -/
structure TxFlags where
  request_smuggling : Bool := false
deriving DecidableEq, Repr

/-- `HtpResponseNumber.eq_num`.  Modelled from the spec: the transaction
module is not under `src/`; an unset or invalid status number compares
unequal to every concrete code. -/
def eqNum (s : Option Nat) (n : Nat) : Bool := s == some n

/-- `HtpResponseNumber.in_range`; same modelling note as `eqNum`. -/
def inRange (s : Option Nat) (lo hi : Nat) : Bool :=
  match s with
  | some v => decide (lo ≤ v ∧ v ≤ hi)
  | none => false

/-- The state of the response direction of a `ConnectionParser` together
with the fields of the current outbound transaction that the response
state machine reads or writes. -/
structure RespState where
  -- connection parser, response direction
  response_state : State
  response_status : HtpStreamState
  request_status : HtpStreamState
  request_state : State
  response_buf : List Nat
  response_header : Option (List Nat)
  response_curr_data : List Nat
  cursor : Nat
  response_content_length_cp : Int
  response_body_data_left : Int
  response_chunked_length : Option Int
  response_data_other_at_tx_end : Bool
  request_content_length : Int
  request_body_data_left : Int
  field_limit : Nat
  -- current outbound transaction
  request_method_number : HtpMethod
  request_headers : List Header
  response_headers : List Header
  response_status_number : Option Nat
  response_protocol_number : HtpProtocol
  response_transfer_coding : HtpTransferCoding
  response_progress : HtpResponseProgress
  response_content_length : Int
  response_content_type : Option (List Nat)
  response_message_len : Int
  response_entity_len : Int
  seen_100continue : Bool
  is_http_2_upgrade : Bool
  flags : TxFlags
  logs : List LogCode
deriving DecidableEq, Repr

/-- Append a log entry (`htp_error!` / `htp_warn!` / `htp_info!`). -/
def RespState.log (st : RespState) (c : LogCode) : RespState :=
  { st with logs := st.logs ++ [c] }

/-- `ConnectionParser::response_curr_len` (src/response.rs lines 994-996). -/
def RespState.response_curr_len (st : RespState) : Nat := st.response_curr_data.length

/-- `ConnectionParser::check_response_buffer_limit`
(src/response.rs lines 99-124). -/
def check_response_buffer_limit (st : RespState) (len : Nat) : RespState × StepRes :=
  if st.response_curr_len == 0 || len == 0 then (st, .ok)
  else
    let newlen := st.response_buf.length + len +
      (match st.response_header with | some h => h.length | none => 0)
    if newlen > st.field_limit then (st.log .RESPONSE_FIELD_TOO_LONG, .err .ERROR)
    else (st, .ok)

/-- `Transaction::state_response_headers` via
`ConnectionParser::state_response_headers`
(src/connection_parser.rs lines 574-581).
Modelled from the spec: the transaction module is not under `src/`; this
call advances hook bookkeeping and runs the RESPONSE_HEADERS hooks, which
are external collaborators, so it is modelled as succeeding without
observable state change. -/
def state_response_headers (st : RespState) : RespState × StepRes := (st, .ok)

/-- `Transaction::res_process_body_data` via
`ConnectionParser::response_process_body_data_ex`.
Modelled from the spec: the transaction module is not under `src/`.  The
spec defines `response_message_len` as the wire length and
`response_entity_len` as the decoded length of the body; with no
decompression configured the bytes pass through unchanged, and a `none`
argument only flushes the decoders. -/
def response_process_body_data_ex (st : RespState) (data : Option (List Nat)) :
    RespState × StepRes :=
  match data with
  | some d =>
    ({ st with
        response_message_len := st.response_message_len + d.length,
        response_entity_len := st.response_entity_len + d.length }, .ok)
  | none => (st, .ok)

/-- `util::is_valid_chunked_length_data`, imported by src/response.rs but
absent from the `src/` tree.  Modelled from the spec: a chunk-length
line fragment is still potentially valid iff, after optional SP/HT, the
bytes seen so far up to any extension (`;`) or CR are hex digits
("invalid non-hex leading bytes transition to identity-until-close"). -/
def is_valid_chunked_length_data (data : List Nat) : Bool :=
  ((data.dropWhile isNomSpace).takeWhile (fun c => !(c == 59 || c == 13))).all isHexB

/-- `ConnectionParser::handle_response_absent_lf`
(src/response.rs lines 986-991). -/
def handle_response_absent_lf (st : RespState) (data : List Nat) : RespState × StepRes :=
  let st := { st with cursor := st.response_curr_data.length }
  match check_response_buffer_limit st data.length with
  | (st, .err e) => (st, .err e)
  | (st, .ok) =>
    ({ st with response_buf := st.response_buf ++ data }, .err .DATA_BUFFER)

/-- `ConnectionParser::response_body_chunked_data_end`
(src/response.rs lines 130-148). -/
def response_body_chunked_data_end (st : RespState) (data : List Nat) :
    RespState × StepRes :=
  match takeTillLf data with
  | some (_, line) =>
    ({ st with
        cursor := st.cursor + line.length,
        response_message_len := st.response_message_len + line.length,
        response_state := .BODY_CHUNKED_LENGTH }, .ok)
  | none =>
    ({ st with
        cursor := st.response_curr_data.length,
        response_message_len := st.response_message_len + data.length }, .err .DATA_BUFFER)

/-- `ConnectionParser::response_body_chunked_data`
(src/response.rs lines 154-177). -/
def response_body_chunked_data (st : RespState) (data : List Nat) :
    RespState × StepRes :=
  let bytes_to_consume :=
    min data.length (match st.response_chunked_length with
      | some l => l.toNat
      | none => 0)
  if bytes_to_consume == 0 then (st, .err .DATA)
  else
    match response_process_body_data_ex st (some (data.take bytes_to_consume)) with
    | (st, .err e) => (st, .err e)
    | (st, .ok) =>
      let st := { st with cursor := st.cursor + bytes_to_consume }
      match st.response_chunked_length with
      | some l =>
        let l' := l - bytes_to_consume
        let st := { st with response_chunked_length := some l' }
        if l' == 0 then ({ st with response_state := .BODY_CHUNKED_DATA_END }, .ok)
        else (st, .err .DATA)
      | none => (st, .err .DATA)

/-- The complete-line (and absent-LF) part of
`ConnectionParser::response_body_chunked_length`
(src/response.rs lines 182-258), reached when the data does not begin
with LF: the `take_till_lf` match with the line necessarily differing
from `"\n"`, and the `Incomplete` fallback. -/
def response_body_chunked_length_line (st : RespState) (data : List Nat) :
    RespState × StepRes :=
  match takeTillLf data with
  | some (_, line) =>
    let st := { st with cursor := st.cursor + line.length }
    match (if st.response_buf.isEmpty then (st, StepRes.ok)
           else check_response_buffer_limit st line.length) with
    | (st, .err e) => (st, .err e)
    | (st, .ok) =>
      let data2 := st.response_buf ++ line
      let st := { st with response_message_len := st.response_message_len + data2.length }
      match parse_chunked_length data2 with
      | .ok len =>
        let st := { st with response_chunked_length := len.map Int.ofNat }
        match len with
        | some l =>
          if l == 0 then
            ({ st with response_state := .HEADERS,
                       response_progress := .TRAILER }, .ok)
          else
            ({ st with response_state := .BODY_CHUNKED_DATA }, .ok)
        | none => (st, .ok)
      | .error _ =>
        -- reset cursor so BODY_IDENTITY_STREAM_CLOSE reprocesses the line
        let st := { st with
          cursor := st.cursor - line.length,
          response_state := .BODY_IDENTITY_STREAM_CLOSE,
          response_transfer_coding := .IDENTITY }
        (st.log .INVALID_RESPONSE_CHUNK_LEN, .ok)
  | none =>
    if !is_valid_chunked_length_data data then
      let st := { st with
        response_state := .BODY_IDENTITY_STREAM_CLOSE,
        response_transfer_coding := .IDENTITY }
      (st.log .INVALID_RESPONSE_CHUNK_LEN, .ok)
    else handle_response_absent_lf st data

/-- `ConnectionParser::response_body_chunked_length`
(src/response.rs lines 182-258).  The source matches on `take_till_lf`
and, when the line is exactly `"\n"`, recurses on the remainder; a line
is exactly `"\n"` precisely when the data starts with LF, so that case
is split off to make the recursion structural, and the remaining cases
live in `response_body_chunked_length_line`. -/
def response_body_chunked_length (st : RespState) (data : List Nat) :
    RespState × StepRes :=
  match data with
  | b :: remaining =>
    if b = 10 then
      -- take_till_lf returns the line "\n": empty chunk-length line,
      -- count it and continue parsing on the remainder
      let st := { st with cursor := st.cursor + 1 }
      match (if st.response_buf.isEmpty then (st, StepRes.ok)
             else check_response_buffer_limit st 1) with
      | (st, .err e) => (st, .err e)
      | (st, .ok) =>
        let st := { st with response_message_len := st.response_message_len + 1 }
        response_body_chunked_length st remaining
    else response_body_chunked_length_line st (b :: remaining)
  | [] => response_body_chunked_length_line st []

/-- `ConnectionParser::response_body_identity_cl_known`
(src/response.rs lines 264-300), for ordinary (non-gap) chunks. -/
def response_body_identity_cl_known (st : RespState) (data : List Nat) :
    RespState × StepRes :=
  if st.response_status == .CLOSED then
    let st := { st with response_state := .FINALIZE }
    response_process_body_data_ex st (some data)
  else
    let bytes_to_consume := min data.length st.response_body_data_left.toNat
    if bytes_to_consume == 0 then (st, .err .DATA)
    else
      match response_process_body_data_ex st (some (data.take bytes_to_consume)) with
      | (st, .err e) => (st, .err e)
      | (st, .ok) =>
        let st := { st with
          cursor := st.cursor + bytes_to_consume,
          response_body_data_left := st.response_body_data_left - bytes_to_consume }
        if st.response_body_data_left == 0 then
          let st := { st with response_state := .FINALIZE }
          response_process_body_data_ex st none
        else (st, .err .DATA)

/-- `ConnectionParser::response_body_identity_stream_close`
(src/response.rs lines 307-325), for ordinary (non-gap) chunks. -/
def response_body_identity_stream_close (st : RespState) (data : List Nat) :
    RespState × StepRes :=
  let step :=
    if !data.isEmpty then
      match response_process_body_data_ex st (some data) with
      | (st, r) => ({ st with cursor := st.response_curr_data.length }, r)
    else (st, StepRes.ok)
  match step with
  | (st, .err e) => (st, .err e)
  | (st, .ok) =>
    if st.response_status == .CLOSED then
      ({ st with response_state := .FINALIZE }, .ok)
    else (st, .err .DATA)

/-- Key bytes: `"content-length"`. -/
def clKey : List Nat := [99, 111, 110, 116, 101, 110, 116, 45, 108, 101, 110, 103, 116, 104]

/-- Key bytes: `"transfer-encoding"`. -/
def teKey : List Nat :=
  [116, 114, 97, 110, 115, 102, 101, 114, 45, 101, 110, 99, 111, 100, 105, 110, 103]

/-- Key bytes: `"upgrade"`. -/
def upgradeKey : List Nat := [117, 112, 103, 114, 97, 100, 101]

/-- Bytes: `"h2c"`. -/
def h2cBytes : List Nat := [104, 50, 99]

/-- Key bytes: `"content-type"`. -/
def ctKey : List Nat := [99, 111, 110, 116, 101, 110, 116, 45, 116, 121, 112, 101]

/-- Key bytes: `"expect"`. -/
def expectKey : List Nat := [101, 120, 112, 101, 99, 116]

/-- Bytes: `"100-continue"`. -/
def continueBytes : List Nat := [49, 48, 48, 45, 99, 111, 110, 116, 105, 110, 117, 101]

/-- Bytes: `"chunked"`. -/
def chunkedBytes : List Nat := [99, 104, 117, 110, 107, 101, 100]

/-- Bytes: `"multipart/byteranges"`. -/
def multipartByterangesBytes : List Nat :=
  [109, 117, 108, 116, 105, 112, 97, 114, 116, 47, 98, 121, 116, 101, 114, 97, 110, 103, 101, 115]

/-- The MIME-type prefix extraction in `response_body_determine`
(src/response.rs lines 473-480): `streaming_take_till(';' or space)`,
falling back to the whole value when no terminator occurs (`Incomplete`). -/
def takeTillSemiOrSpace (v : List Nat) : Option (List Nat) :=
  let pre := v.takeWhile (fun c => !(c == 59 || isSpaceB c))
  if pre.length == v.length then none else some pre

/-- The lowercased mime type extracted from a Content-Type value in
`response_body_determine` (src/response.rs lines 463-477). -/
def responseMimeBytes (v : List Nat) : List Nat :=
  (match takeTillSemiOrSpace v with
    | some pre => pre
    | none => v).map toLowerB

/-- The part of `response_body_determine` from the HEAD / no-body checks
to the end (src/response.rs lines 436-588), shared by the fall-through
paths of the earlier status-specific branches. -/
def response_body_determine_rest (st : RespState) (cl_opt te_opt : Option Header) :
    RespState × StepRes :=
  -- 1. messages that must not include a body
  let st :=
    if st.request_method_number == HtpMethod.HEAD then
      { st with response_transfer_coding := .NO_BODY, response_state := .FINALIZE }
    else if inRange st.response_status_number 100 199
        || eqNum st.response_status_number 204
        || eqNum st.response_status_number 304 then
      if te_opt.isNone && cl_opt.isNone then
        { st with response_transfer_coding := .NO_BODY, response_state := .FINALIZE }
      else st.log .RESPONSE_BODY_UNEXPECTED
    else st
  let bodyRes : RespState × StepRes :=
    if st.response_state ≠ State.FINALIZE then
      -- we have a response body: content type and framing selection
      let ctInfo : Option (List Nat) × Bool :=
        match getNocase st.response_headers ctKey with
        | some ct =>
          let mimeL := responseMimeBytes ct.value
          (some mimeL, containsNoCase mimeL multipartByterangesBytes)
        | none => (none, false)
      let st := match ctInfo.1 with
        | some c => { st with response_content_type := some c }
        | none => st
      let multipart_byteranges := ctInfo.2
      let teChunked : Option Header :=
        match te_opt with
        | some te => if containsNoCase te.value chunkedBytes then some te else none
        | none => none
      match teChunked with
      | some te =>
        -- 2. chunked transfer coding
        let st := if !eqNoCase te.value chunkedBytes then
            st.log .RESPONSE_ABNORMAL_TRANSFER_ENCODING
          else st
        let st := if protoLt st.response_protocol_number .V1_1 then
            st.log .RESPONSE_CHUNKED_OLD_PROTO
          else st
        let st := { st with response_transfer_coding := .CHUNKED }
        let st := if cl_opt ≠ none then
            { st with flags := { st.flags with request_smuggling := true } }
          else st
        ({ st with response_state := .BODY_CHUNKED_LENGTH,
                   response_progress := .BODY }, .ok)
      | none =>
        match cl_opt with
        | some cl =>
          -- 3. Content-Length framing
          let st := { st with response_transfer_coding := .IDENTITY }
          let st := if cl.repeated then
              { st with flags := { st.flags with request_smuggling := true } }
            else st
          let (pcl, w) := parse_content_length_full cl.value
          let st := if w.extra_data_start then st.log .CONTENT_LENGTH_EXTRA_DATA_START else st
          let st := if w.extra_data_end then st.log .CONTENT_LENGTH_EXTRA_DATA_END else st
          match pcl with
          | some n =>
            let st := { st with
              response_content_length := n,
              response_content_length_cp := n,
              response_body_data_left := n }
            if (n : Int) ≠ 0 then
              ({ st with response_state := .BODY_IDENTITY_CL_KNOWN,
                         response_progress := .BODY }, .ok)
            else ({ st with response_state := .FINALIZE }, .ok)
          | none => (st.log .INVALID_CONTENT_LENGTH_FIELD_IN_RESPONSE, .err .ERROR)
        | none =>
          -- 4./5. multipart/byteranges is unsupported; otherwise read
          -- until stream close
          if multipart_byteranges then
            (st.log .RESPONSE_MULTIPART_BYTERANGES, .err .ERROR)
          else
            ({ st with
                response_state := .BODY_IDENTITY_STREAM_CLOSE,
                response_transfer_coding := .IDENTITY,
                response_progress := .BODY,
                response_body_data_left := -1 }, .ok)
    else (st, .ok)
  match bodyRes with
  | (st, .ok) => state_response_headers st
  | e => e

/-- The CONNECT-method handling at the start of
`response_body_determine` (src/response.rs lines 329-358):
`Sum.inl` is the early return taken for a 2xx CONNECT response. -/
def responseConnectCheck (st : RespState) : Sum (RespState × StepRes) RespState :=
  if st.request_method_number == HtpMethod.CONNECT then
    if inRange st.response_status_number 200 299 then
      Sum.inl (state_response_headers { st with response_state := .FINALIZE })
    else if eqNum st.response_status_number 407 then
      Sum.inr { st with request_status :=
        if st.request_status == HtpStreamState.ERROR then st.request_status
        else .DATA }
    else
      Sum.inr { st with
        request_status :=
          if st.request_status == HtpStreamState.ERROR then st.request_status
          else .DATA,
        response_data_other_at_tx_end := true }
  else Sum.inr st

/-- The status-specific early exits of `response_body_determine`
(src/response.rs lines 369-434): 101 Switching Protocols, the interim
100 Continue, and the Expect/4xx bookkeeping.  `Sum.inl` is an early
return. -/
def responseStatusSpecialCheck (st : RespState) (cl_opt te_opt : Option Header) :
    Sum (RespState × StepRes) RespState :=
  if eqNum st.response_status_number 101 then
    let st :=
      if (match getNocase st.response_headers upgradeKey with
          | some u => containsNoCase u.value h2cBytes
          | none => false) then
        { st with is_http_2_upgrade := true }
      else st
    if te_opt.isNone && cl_opt.isNone then
      Sum.inl (state_response_headers
        { st with
            response_state := .FINALIZE,
            request_status :=
              if st.request_status == HtpStreamState.ERROR then st.request_status
              else .TUNNEL,
            response_status := .TUNNEL })
    else Sum.inr (st.log .SWITCHING_PROTO_WITH_CONTENT_LENGTH)
  else if eqNum st.response_status_number 100 && te_opt.isNone && cl_opt.isNone then
    if st.seen_100continue then
      Sum.inl (st.log .CONTINUE_ALREADY_SEEN, .err .ERROR)
    else
      Sum.inl
        ({ st with
            response_headers := [],
            response_state := .LINE,
            response_progress := .LINE,
            seen_100continue := true }, .ok)
  else
    Sum.inr
      (if inRange st.response_status_number 400 499
          && decide (st.request_content_length > 0)
          && st.request_body_data_left == st.request_content_length then
        match getNocase st.request_headers expectKey with
        | some expect =>
          if expect.value = continueBytes then { st with request_state := .FINALIZE }
          else st
        | none => st
      else st)

/-- `ConnectionParser::response_body_determine`
(src/response.rs lines 328-588): the CONNECT check, the status-specific
early exits, then the body-framing selection of
`response_body_determine_rest`. -/
def response_body_determine (st : RespState) : RespState × StepRes :=
  match responseConnectCheck st with
  | Sum.inl r => r
  | Sum.inr st =>
    let cl_opt := getNocase st.response_headers clKey
    let te_opt := getNocase st.response_headers teKey
    match responseStatusSpecialCheck st cl_opt te_opt with
    | Sum.inl r => r
    | Sum.inr st => response_body_determine_rest st cl_opt te_opt

/-- `ConnectionParser::handle_response_state`: the `handle_out_state`
dispatch (src/connection_parser.rs lines 344-361) restricted to the
states whose handlers are embedded above; the LINE / HEADERS / IDLE /
FINALIZE handlers depend on response-line and header-block parsing code
that is not part of this development, so dispatching to them yields
`none`. -/
def handle_response_state (st : RespState) : Option (RespState × StepRes) :=
  let data := st.response_curr_data.drop st.cursor
  match st.response_state with
  | .BODY_DETERMINE => some (response_body_determine st)
  | .BODY_CHUNKED_LENGTH => some (response_body_chunked_length st data)
  | .BODY_CHUNKED_DATA => some (response_body_chunked_data st data)
  | .BODY_CHUNKED_DATA_END => some (response_body_chunked_data_end st data)
  | .BODY_IDENTITY_STREAM_CLOSE => some (response_body_identity_stream_close st data)
  | .BODY_IDENTITY_CL_KNOWN => some (response_body_identity_cl_known st data)
  | _ => none

/-- The processing loop of `ConnectionParser::response_data`
(src/response.rs lines 929-982).  `fuel` bounds the number of handler
invocations; the theorems below supply ample fuel for their runs.
`response_handle_state_change` only moves data-receiver hooks
(external collaborators) and is a no-op here. -/
def response_data_loop (fuel : Nat) (st : RespState) :
    Option (RespState × HtpStreamState) :=
  match fuel with
  | 0 => none
  | fuel + 1 =>
    match handle_response_state st with
    | none => none
    | some (st, rc) =>
      match rc with
      | .ok =>
        if st.response_status == HtpStreamState.TUNNEL then some (st, .TUNNEL)
        else response_data_loop fuel st
      | .err .DATA | .err .DATA_BUFFER =>
        some ({ st with response_status := .DATA }, .DATA)
      | .err .STOP => some ({ st with response_status := .STOP }, .STOP)
      | .err .DATA_OTHER =>
        if st.response_curr_data.length ≤ st.cursor then
          some ({ st with response_status := .DATA }, .DATA)
        else some ({ st with response_status := .DATA_OTHER }, .DATA_OTHER)
      | .err _ => some ({ st with response_status := .ERROR }, .ERROR)

/-- `ConnectionParser::response_data` (src/response.rs lines 857-983) for
an ordinary (non-gap) chunk: status checks, the zero-length-chunk rule,
installing the chunk as current data, the tunnel check, then the
processing loop.  Timestamps, connection byte counters and
data-receiver hooks are observable only outside the modelled fragment
and are omitted. -/
def response_data (fuel : Nat) (st : RespState) (chunk : List Nat) :
    Option (RespState × HtpStreamState) :=
  if st.response_status == HtpStreamState.STOP then
    some (st.log .PARSER_STATE_ERROR, .STOP)
  else if st.response_status == HtpStreamState.ERROR then
    some (st.log .PARSER_STATE_ERROR, .ERROR)
  else if chunk.length == 0 && !(st.response_status == HtpStreamState.CLOSED) then
    some (st.log .ZERO_LENGTH_DATA_CHUNKS, .CLOSED)
  else
    let st := { st with response_curr_data := chunk, cursor := 0 }
    if st.response_status == HtpStreamState.TUNNEL then some (st, .TUNNEL)
    else response_data_loop fuel st

/-- A response direction in the middle of a chunked response body, about
to read a chunk-length line: the state reached after parsing
`HTTP/1.1 200 OK` response headers carrying `Transfer-Encoding: chunked`
on a GET transaction, with empty buffers and counters at their
post-header values. -/
def chunkedBodyState : RespState where
  response_state := .BODY_CHUNKED_LENGTH
  response_status := .DATA
  request_status := .DATA
  request_state := .NONE
  response_buf := []
  response_header := none
  response_curr_data := []
  cursor := 0
  response_content_length_cp := -1
  response_body_data_left := -1
  response_chunked_length := none
  response_data_other_at_tx_end := false
  request_content_length := 0
  request_body_data_left := 0
  field_limit := 18000
  request_method_number := .GET
  request_headers := []
  response_headers := [⟨teKey, chunkedBytes, false⟩]
  response_status_number := some 200
  response_protocol_number := .V1_1
  response_transfer_coding := .CHUNKED
  response_progress := .BODY
  response_content_length := -1
  response_content_type := none
  response_message_len := 0
  response_entity_len := 0
  seen_100continue := false
  is_http_2_upgrade := false
  flags := {}
  logs := []

/-!  ### Specification-side predicates

These are written from the wording of the specification / claims, to be
compared with the source-derived functions above. -/

/-- All bytes are SP/HT (the whitespace `ascii_digits` strips). -/
def allNomSpace (ws : List Nat) : Prop := ∀ c ∈ ws, isNomSpace c = true

/-- All bytes are ASCII decimal digits. -/
def allDigits (ds : List Nat) : Prop := ∀ c ∈ ds, isDigitB c = true

/-- The claim on `parse_status` as written: the input, after whitespace
stripping, is exactly three decimal digits whose value `n` lies in
100..=999. -/
def statusSpecThreeDigits (s : List Nat) (n : Nat) : Prop :=
  ∃ ws1 ds ws2, s = ws1 ++ ds ++ ws2 ∧ allNomSpace ws1 ∧ allNomSpace ws2 ∧
    ds.length = 3 ∧ allDigits ds ∧ digitsToNat ds = n ∧ 100 ≤ n ∧ n ≤ 999

/-- The amended claim on `parse_status`: the input, after SP/HT
stripping, is a nonempty run of decimal digits (leading zeros allowed)
whose value `n` lies in 100..=999. -/
def statusSpecDigitRun (s : List Nat) (n : Nat) : Prop :=
  ∃ ws1 ds ws2, s = ws1 ++ ds ++ ws2 ∧ allNomSpace ws1 ∧ allNomSpace ws2 ∧
    ds ≠ [] ∧ allDigits ds ∧ digitsToNat ds = n ∧ 100 ≤ n ∧ n ≤ 999

/-- The claim on `parse_content_length`: the input contains at least one
ASCII decimal digit, and its first contiguous run of digits has value
`n`, a non-negative 64-bit integer.  `pre` is everything before that
run (digit-free), `post` everything after it (maximality: it does not
begin with a digit). -/
def contentLengthSpec (input : List Nat) (n : Nat) : Prop :=
  ∃ pre ds post, input = pre ++ ds ++ post ∧
    (∀ c ∈ pre, isDigitB c = false) ∧ ds ≠ [] ∧ allDigits ds ∧
    (∀ d rest, post = d :: rest → isDigitB d = false) ∧
    digitsToNat ds = n ∧ n ≤ 2 ^ 63 - 1

/-- Bytes: `"http/"` (the prefix named by the claim on the response LINE
state). -/
def httpSlashBytes : List Nat := [104, 116, 116, 112, 47]

/-- Bytes: `"http"`. -/
def httpBytes : List Nat := [104, 116, 116, 112]

/-- The claim on the response LINE state, parameterised by the required
prefix: the line consists of optional leading whitespace followed by
data that begins, case-insensitively, with `pat`. -/
def lineLeadsNoCase (pat data : List Nat) : Prop :=
  ∃ ws rest, data = ws ++ rest ∧ (∀ c ∈ ws, isSpaceB c = true) ∧
    leadsWithNoCase pat rest = true

/-- A decoder configuration with `nul_raw_terminates` switched on and
everything else at permissive defaults. -/
def nulTermCfg : DecoderConfig where
  u_encoding_decode := false
  url_encoding_invalid_handling := .PRESERVE_PERCENT
  u_encoding_unwanted := 0
  url_encoding_invalid_unwanted := 0
  nul_encoded_unwanted := 0
  nul_encoded_terminates := false
  nul_raw_unwanted := 0
  nul_raw_terminates := true
  plusspace_decode := false
  bestfit_map := fun _ _ => 0

/-- `chunkedBodyState` with a byte already buffered from a previous
chunk and a tiny `field_limit`, receiving the chunk `"zz\n"`. -/
def tightLimitChunkState : RespState :=
  { chunkedBodyState with
      response_buf := [113],
      field_limit := 2,
      response_curr_data := [122, 122, 10] }

/-- A response in BODY_DETERMINE for a GET transaction whose response
headers carry `Content-Type: multipart/byteranges` and
`Content-Length: 5`. -/
def byterangesClState : RespState :=
  { chunkedBodyState with
      response_state := .BODY_DETERMINE,
      response_transfer_coding := .UNKNOWN,
      response_progress := .HEADERS,
      response_headers :=
        [⟨ctKey, multipartByterangesBytes, false⟩, ⟨clKey, [53], false⟩] }

/-- A response in BODY_DETERMINE for a HEAD transaction whose response
headers carry `Transfer-Encoding: chunked`. -/
def headChunkedState : RespState :=
  { chunkedBodyState with
      response_state := .BODY_DETERMINE,
      response_transfer_coding := .UNKNOWN,
      response_progress := .HEADERS,
      request_method_number := .HEAD,
      response_headers := [⟨teKey, chunkedBytes, false⟩] }

/-- A response in BODY_DETERMINE with status 100 and no body-framing
headers. -/
def interim100State : RespState :=
  { chunkedBodyState with
      response_state := .BODY_DETERMINE,
      response_transfer_coding := .UNKNOWN,
      response_progress := .HEADERS,
      response_status_number := some 100,
      response_headers := [⟨[120, 45, 97], [121], false⟩] }

/-- A response in BODY_DETERMINE for a GET transaction whose response
headers carry `Transfer-Encoding: chunked` and `Content-Length: 5`. -/
def determineChunkedState : RespState :=
  { chunkedBodyState with
      response_state := .BODY_DETERMINE,
      response_transfer_coding := .UNKNOWN,
      response_progress := .HEADERS,
      response_protocol_number := .V1_0,
      response_headers :=
        [⟨teKey, chunkedBytes, false⟩, ⟨clKey, [53], false⟩] }

/-- `byterangesClState` without the Content-Length header. -/
def byterangesNoClState : RespState :=
  { byterangesClState with
      response_headers := [⟨ctKey, multipartByterangesBytes, false⟩] }

/-!  ## Theorems -/

/-! ### Shared list and byte lemmas -/

theorem drop_length_takeWhile (p : Nat → Bool) (l : List Nat) :
    l.drop (l.takeWhile p).length = l.dropWhile p := by
  induction l with
  | nil => rfl
  | cons a t ih =>
    by_cases h : p a = true <;>
      simp [List.takeWhile_cons, List.dropWhile_cons, h, ih]

theorem dropWhile_append_all {p : Nat → Bool} {l₁ l₂ : List Nat}
    (h : ∀ c ∈ l₁, p c = true) : (l₁ ++ l₂).dropWhile p = l₂.dropWhile p := by
  induction l₁ with
  | nil => rfl
  | cons a t ih =>
    have ha := h a (List.mem_cons_self a t)
    simp [List.dropWhile_cons, ha, ih (fun c hc => h c (List.mem_cons_of_mem a hc))]

theorem takeWhile_append_all {p : Nat → Bool} {l₁ l₂ : List Nat}
    (h : ∀ c ∈ l₁, p c = true) : (l₁ ++ l₂).takeWhile p = l₁ ++ l₂.takeWhile p := by
  induction l₁ with
  | nil => rfl
  | cons a t ih =>
    have ha := h a (List.mem_cons_self a t)
    simp [List.takeWhile_cons, ha, ih (fun c hc => h c (List.mem_cons_of_mem a hc))]

theorem takeWhile_nil_of_head {p : Nat → Bool} {d : Nat} {l : List Nat}
    (hd : p d = false) : (d :: l).takeWhile p = [] := by
  simp [List.takeWhile_cons, hd]

theorem dropWhile_cons_self {p : Nat → Bool} {d : Nat} {l : List Nat}
    (hd : p d = false) : (d :: l).dropWhile p = d :: l := by
  simp [List.dropWhile_cons, hd]

theorem dropWhile_head_neg {p : Nat → Bool} :
    ∀ {l : List Nat} {d : Nat} {rest : List Nat},
      l.dropWhile p = d :: rest → p d = false := by
  intro l
  induction l with
  | nil => intro d rest h; simp at h
  | cons a t ih =>
    intro d rest h
    by_cases ha : p a = true
    · rw [List.dropWhile_cons, if_pos ha] at h
      exact ih h
    · rw [List.dropWhile_cons, if_neg ha] at h
      cases h
      simpa using ha

theorem dropWhile_append_head_neg {p : Nat → Bool} {d : Nat} {l₂ : List Nat}
    (hd : p d = false) :
    ∀ (l₁ : List Nat), (l₁ ++ d :: l₂).dropWhile p = l₁.dropWhile p ++ d :: l₂ := by
  intro l₁
  induction l₁ with
  | nil => simp [dropWhile_cons_self hd]
  | cons a t ih =>
    by_cases ha : p a = true <;>
      simp [List.dropWhile_cons, ha, ih, dropWhile_cons_self]

theorem isNomSpace_false_of_digit {c : Nat} (h : isDigitB c = true) :
    isNomSpace c = false := by
  have h' : 48 ≤ c ∧ c ≤ 57 := by simpa [isDigitB] using h
  have h32 : c ≠ 32 := by omega
  have h9 : c ≠ 9 := by omega
  simp [isNomSpace, h32, h9]

theorem isDigitB_false_of_nomSpace {c : Nat} (h : isNomSpace c = true) :
    isDigitB c = false := by
  have h' : c = 32 ∨ c = 9 := by
    simpa [isNomSpace] using h
  simp only [isDigitB, decide_eq_false_iff_not]
  omega

theorem takeWhile_digits_nil_of_nomSpace {ws : List Nat} (h : allNomSpace ws) :
    ws.takeWhile isDigitB = [] := by
  cases ws with
  | nil => rfl
  | cons w t =>
    exact takeWhile_nil_of_head
      (isDigitB_false_of_nomSpace (h w (List.mem_cons_self w t)))

/-- `asciiDigits` with its `let`s flattened. -/
theorem asciiDigits_eq (s : List Nat) :
    asciiDigits s =
      (if (((s.dropWhile isNomSpace).dropWhile fun c => !(isDigitB c)).takeWhile
            isDigitB).isEmpty = true
       then none
       else some
        ((((s.dropWhile isNomSpace).dropWhile fun c => !(isDigitB c)).drop
            ((((s.dropWhile isNomSpace).dropWhile fun c => !(isDigitB c)).takeWhile
              isDigitB).length)).dropWhile isNomSpace,
         ((s.dropWhile isNomSpace).takeWhile fun c => !(isDigitB c),
          ((s.dropWhile isNomSpace).dropWhile fun c => !(isDigitB c)).takeWhile
            isDigitB))) := rfl

/-- When the input decomposes as non-digit junk, a digit run and a
maximal tail, `asciiDigits` finds exactly that digit run. -/
theorem asciiDigits_of_decomp {pre : List Nat} {d : Nat} {ds' post : List Nat}
    (hpre : ∀ c ∈ pre, isDigitB c = false) (hd : isDigitB d = true)
    (hds : ∀ c ∈ d :: ds', isDigitB c = true)
    (hpost : ∀ e rest, post = e :: rest → isDigitB e = false) :
    asciiDigits (pre ++ (d :: ds') ++ post) =
      some (post.dropWhile isNomSpace,
        (pre.dropWhile isNomSpace, d :: ds')) := by
  have hassoc : pre ++ (d :: ds') ++ post = pre ++ (d :: (ds' ++ post)) := by
    simp
  have hdsp : isNomSpace d = false := isNomSpace_false_of_digit hd
  have e1 : (pre ++ (d :: ds') ++ post).dropWhile isNomSpace
      = pre.dropWhile isNomSpace ++ (d :: (ds' ++ post)) := by
    rw [hassoc]
    exact dropWhile_append_head_neg hdsp pre
  have hpre' : ∀ c ∈ pre.dropWhile isNomSpace, (!(isDigitB c)) = true := by
    intro c hc
    have : c ∈ pre := (List.dropWhile_sublist _).subset hc
    simp [hpre c this]
  have e2 : (pre.dropWhile isNomSpace ++ (d :: (ds' ++ post))).takeWhile
      (fun c => !(isDigitB c)) = pre.dropWhile isNomSpace := by
    rw [takeWhile_append_all hpre',
      takeWhile_nil_of_head (by simp [hd]), List.append_nil]
  have e3 : (pre.dropWhile isNomSpace ++ (d :: (ds' ++ post))).dropWhile
      (fun c => !(isDigitB c)) = d :: (ds' ++ post) := by
    rw [dropWhile_append_all hpre', dropWhile_cons_self (by simp [hd])]
  have e4 : (d :: (ds' ++ post)).takeWhile isDigitB = d :: ds' := by
    have : (d :: (ds' ++ post)) = (d :: ds') ++ post := by simp
    rw [this, takeWhile_append_all (by intro c hc; exact hds c hc)]
    have hp : post.takeWhile isDigitB = [] := by
      cases hpost' : post with
      | nil => rfl
      | cons e rest => exact takeWhile_nil_of_head (hpost e rest hpost')
    rw [hp, List.append_nil]
  have e5 : (d :: (ds' ++ post)).drop (d :: ds').length = post := by
    have : (d :: (ds' ++ post)) = (d :: ds') ++ post := by simp
    rw [this, List.drop_left]
  rw [asciiDigits_eq, e1, e2, e3, e4, e5]
  simp

/-! ### C3: `parse_status` -/

/-- Claim C3, amended: `parse_status` returns `some n` iff the input, after
SP/TAB stripping, is a nonempty run of decimal digits (leading zeros
allowed) whose value `n` lies in 100..=999. -/
theorem parse_status_iff_digit_run (s : List Nat) (n : Nat) :
    parse_status s = some n ↔ statusSpecDigitRun s n := by
  constructor
  · intro h
    rcases hA : asciiDigits s with _ | ⟨trailing, leading, digits⟩
    · simp [parse_status, hA] at h
    · simp only [parse_status, hA] at h
      split_ifs at h with h1 h2 h3 <;> try exact Option.noConfusion h
      -- the successful branch
      · have hn : digitsToNat digits = n := by simpa using h
        push_neg at h1
        have hlead : leading = [] := List.length_eq_zero.mp (by omega)
        have htrail : trailing = [] := List.length_eq_zero.mp (by omega)
        subst hlead htrail hn
        rw [asciiDigits_eq] at hA
        split_ifs at hA with hEmpty <;> try exact Option.noConfusion hA
        simp only [Option.some.injEq, Prod.mk.injEq] at hA
        obtain ⟨hT, hL, hD⟩ := hA
        set s1 := s.dropWhile isNomSpace with hs1
        set s2 := s1.dropWhile (fun c => !(isDigitB c)) with hs2
        set D := s2.takeWhile isDigitB with hDdef
        set R := s2.drop D.length with hRdef
        subst hD
        refine ⟨s.takeWhile isNomSpace, D, R, ?_, ?_, ?_, ?_, ?_, rfl, h3.1, h3.2⟩
        · have a1 : s = s.takeWhile isNomSpace ++ s1 :=
            (List.takeWhile_append_dropWhile isNomSpace s).symm
          have a2 : s1 = s2 := by
            conv_lhs => rw [← List.takeWhile_append_dropWhile
              (fun c => !(isDigitB c)) s1]
            rw [hL, List.nil_append]
          have a3 : s2 = D ++ R := by
            conv_lhs => rw [← List.takeWhile_append_dropWhile isDigitB s2]
            rw [hDdef, hRdef, drop_length_takeWhile]
          rw [List.append_assoc, ← a3, ← a2, ← a1]
        · intro c hc
          exact List.mem_takeWhile_imp hc
        · exact fun c hc => List.dropWhile_eq_nil_iff.mp hT c hc
        · intro hdig
          rw [hdig] at hEmpty
          simp at hEmpty
        · intro c hc
          exact List.mem_takeWhile_imp hc
  · rintro ⟨ws1, ds, ws2, hdec, hws1, hws2, hne, hds, hval, h100, h999⟩
    obtain ⟨d, ds', rfl⟩ : ∃ d ds', ds = d :: ds' := by
      cases ds with
      | nil => exact absurd rfl hne
      | cons d ds' => exact ⟨d, ds', rfl⟩
    have hd : isDigitB d = true := hds d (List.mem_cons_self d _)
    have hA : asciiDigits s = some (ws2.dropWhile isNomSpace, (ws1.dropWhile isNomSpace, d :: ds')) := by
      rw [hdec]
      exact asciiDigits_of_decomp
        (fun c hc => isDigitB_false_of_nomSpace (hws1 c hc)) hd hds
        (fun e rest h => by
          subst h
          exact isDigitB_false_of_nomSpace (hws2 e (List.mem_cons_self e _)))
    have hT : ws2.dropWhile isNomSpace = [] := List.dropWhile_eq_nil_iff.mpr hws2
    have hL : ws1.dropWhile isNomSpace = [] := List.dropWhile_eq_nil_iff.mpr hws1
    rw [hT, hL] at hA
    simp only [parse_status, hA]
    rw [hval]
    have : ¬n > 65535 := by omega
    simp [this, h100, h999]

/-- Claim C3, counterexample to the claim as written: `"0200"` parses to
status 200 although, after whitespace stripping, it is not exactly
three decimal digits. -/
theorem parse_status_leading_zero_counterexample :
    parse_status [48, 50, 48, 48] = some 200 ∧
      ¬ statusSpecThreeDigits [48, 50, 48, 48] 200 := by
  constructor
  · decide
  · rintro ⟨ws1, ds, ws2, hdec, hws1, hws2, hlen, -⟩
    have hmem1 : ws1 = [] := by
      rw [List.eq_nil_iff_forall_not_mem]
      intro c hc
      have hcs : c ∈ ([48, 50, 48, 48] : List Nat) := by
        rw [hdec]
        exact List.mem_append.mpr (Or.inl (List.mem_append.mpr (Or.inl hc)))
      have : isNomSpace c = true := hws1 c hc
      rcases (by simpa using hcs : c = 48 ∨ c = 50 ∨ c = 48 ∨ c = 48) with h | h | h | h <;>
        (subst h; simp [isNomSpace] at this)
    have hmem2 : ws2 = [] := by
      rw [List.eq_nil_iff_forall_not_mem]
      intro c hc
      have hcs : c ∈ ([48, 50, 48, 48] : List Nat) := by
        rw [hdec]
        exact List.mem_append.mpr (Or.inr hc)
      have : isNomSpace c = true := hws2 c hc
      rcases (by simpa using hcs : c = 48 ∨ c = 50 ∨ c = 48 ∨ c = 48) with h | h | h | h <;>
        (subst h; simp [isNomSpace] at this)
    rw [hmem1, hmem2, List.nil_append, List.append_nil] at hdec
    have h4 : ds.length = 4 := by
      have := congrArg List.length hdec
      simpa using this.symm
    omega

/-! ### C10: `parse_content_length` -/

/-- Claim C10: `parse_content_length` returns `some n` exactly when the
input contains at least one ASCII decimal digit and its first
contiguous digit run has value `n` fitting a non-negative signed 64-bit
integer; junk before or after the run never causes rejection. -/
theorem parse_content_length_iff_first_run (input : List Nat) (n : Nat) :
    parse_content_length input = some n ↔ contentLengthSpec input n := by
  constructor
  · intro h
    rcases hA : asciiDigits input with _ | ⟨trailing, leading, digits⟩
    · simp [parse_content_length, parse_content_length_full, hA] at h
    · simp only [parse_content_length, parse_content_length_full, hA] at h
      split_ifs at h with hbound <;> try exact Option.noConfusion h
      · have hn : digitsToNat digits = n := by simpa using h
        subst hn
        rw [asciiDigits_eq] at hA
        split_ifs at hA with hEmpty <;> try exact Option.noConfusion hA
        simp only [Option.some.injEq, Prod.mk.injEq] at hA
        obtain ⟨hT, hL, hD⟩ := hA
        set s1 := input.dropWhile isNomSpace with hs1
        set s2 := s1.dropWhile (fun c => !(isDigitB c)) with hs2
        set D := s2.takeWhile isDigitB with hDdef
        set R := s2.drop D.length with hRdef
        subst hD hL
        refine ⟨input.takeWhile isNomSpace ++ s1.takeWhile (fun c => !(isDigitB c)),
          D, R, ?_, ?_, ?_, ?_, ?_, rfl, hbound⟩
        · have a1 : input = input.takeWhile isNomSpace ++ s1 :=
            (List.takeWhile_append_dropWhile isNomSpace input).symm
          have a2 : s1 = s1.takeWhile (fun c => !(isDigitB c)) ++ s2 :=
            (List.takeWhile_append_dropWhile _ s1).symm
          have a3 : s2 = D ++ R := by
            conv_lhs => rw [← List.takeWhile_append_dropWhile isDigitB s2]
            rw [hDdef, hRdef, drop_length_takeWhile]
          rw [List.append_assoc, List.append_assoc, ← a3, ← a2, ← a1]
        · intro c hc
          rcases List.mem_append.mp hc with hc | hc
          · exact isDigitB_false_of_nomSpace (List.mem_takeWhile_imp hc)
          · have := List.mem_takeWhile_imp hc
            simpa using this
        · intro hdig
          rw [hdig] at hEmpty
          simp at hEmpty
        · intro c hc
          exact List.mem_takeWhile_imp hc
        · intro e rest hpost
          have : s2.dropWhile isDigitB = e :: rest := by
            rw [← drop_length_takeWhile isDigitB s2, ← hDdef, ← hRdef]
            exact hpost
          exact dropWhile_head_neg this
  · rintro ⟨pre, ds, post, hdec, hpre, hne, hds, hpost, hval, hbound⟩
    obtain ⟨d, ds', rfl⟩ : ∃ d ds', ds = d :: ds' := by
      cases ds with
      | nil => exact absurd rfl hne
      | cons d ds' => exact ⟨d, ds', rfl⟩
    have hd : isDigitB d = true := hds d (List.mem_cons_self d _)
    have hA : asciiDigits input
        = some (post.dropWhile isNomSpace, (pre.dropWhile isNomSpace, d :: ds')) := by
      rw [hdec]
      exact asciiDigits_of_decomp hpre hd hds hpost
    have hbound' : n ≤ 9223372036854775807 := by
      have : (2 : Nat) ^ 63 - 1 = 9223372036854775807 := by norm_num
      omega
    simp [parse_content_length, parse_content_length_full, hA, hval, hbound']

/-! ### C9: `treat_response_line_as_body` -/

theorem isSpaceB_false_of_ge {d : Nat} (h : 33 ≤ d) : isSpaceB d = false := by
  have h32 : d ≠ 32 := by omega
  have h9 : d ≠ 9 := by omega
  have h13 : d ≠ 13 := by omega
  have h10 : d ≠ 10 := by omega
  have h11 : d ≠ 11 := by omega
  have h12 : d ≠ 12 := by omega
  simp [isSpaceB, h32, h9, h13, h10, h11, h12]

theorem toLowerB_eq_h_ge {d : Nat} (h : toLowerB d = 104) : 33 ≤ d := by
  unfold toLowerB at h
  split_ifs at h with hc
  · omega
  · omega

/-- Claim C9, amended: in the response LINE state a line is processed as
body data iff it does not begin, after optional leading whitespace,
with the case-insensitive prefix `"HTTP"` — with no slash required,
unlike the claim as written. -/
theorem treat_response_line_iff_http_lead (data : List Nat) :
    treat_response_line_as_body data = false ↔ lineLeadsNoCase httpBytes data := by
  constructor
  · intro h
    have hlead : leadsWithNoCase httpBytes (data.dropWhile isSpaceB) = true := by
      simpa [treat_response_line_as_body, httpBytes] using h
    exact ⟨data.takeWhile isSpaceB, data.dropWhile isSpaceB,
      (List.takeWhile_append_dropWhile isSpaceB data).symm,
      fun c hc => List.mem_takeWhile_imp hc, hlead⟩
  · rintro ⟨ws, rest, rfl, hws, hlead⟩
    obtain ⟨d, rest', rfl⟩ : ∃ d rest', rest = d :: rest' := by
      cases rest with
      | nil => simp [leadsWithNoCase, httpBytes] at hlead
      | cons d r => exact ⟨d, r, rfl⟩
    have hd : toLowerB d = 104 := by
      simp [leadsWithNoCase, httpBytes, List.take_succ_cons] at hlead
      exact hlead.2.1
    have hdsp : isSpaceB d = false := isSpaceB_false_of_ge (toLowerB_eq_h_ge hd)
    have hdrop : (ws ++ d :: rest').dropWhile isSpaceB = d :: rest' := by
      rw [dropWhile_append_head_neg hdsp, List.dropWhile_eq_nil_iff.mpr hws,
        List.nil_append]
    have hlead' : leadsWithNoCase [104, 116, 116, 112] (d :: rest') = true := by
      simpa [httpBytes] using hlead
    simp [treat_response_line_as_body, hdrop, hlead']

/-- Claim C9, counterexample to the claim as written: the line `"HTTPx"`
does not begin with `"HTTP/"`, yet the code does not treat it as body
data (it is handed to the status-line parser), because the source only
requires the prefix `"http"`. -/
theorem treat_response_line_no_slash_counterexample :
    treat_response_line_as_body [72, 84, 84, 80, 120] = false ∧
      ¬ lineLeadsNoCase httpSlashBytes [72, 84, 84, 80, 120] := by
  refine ⟨by decide, ?_⟩
  rintro ⟨ws, rest, hdec, hws, hlead⟩
  have hws_nil : ws = [] := by
    rw [List.eq_nil_iff_forall_not_mem]
    intro c hc
    have hcs : c ∈ ([72, 84, 84, 80, 120] : List Nat) :=
      hdec ▸ List.mem_append.mpr (Or.inl hc)
    have hsp := hws c hc
    rcases (by simpa using hcs : c = 72 ∨ c = 84 ∨ c = 84 ∨ c = 80 ∨ c = 120) with
      h | h | h | h | h <;> (subst h; simp [isSpaceB] at hsp)
  subst hws_nil
  rw [List.nil_append] at hdec
  subst hdec
  exact absurd hlead (by decide)

/-! ### C7: `urldecode_inplace` on inputs without special bytes -/

/-- Claim C7, amended: for every decoder configuration, an input with no
`'%'`, no `'+'` and no NUL byte decodes to itself. -/
theorem urldecode_inplace_identity (cfg : DecoderConfig) (input : List Nat)
    (h37 : 37 ∉ input) (h43 : 43 ∉ input) (h0 : 0 ∉ input) :
    urldecode_inplace cfg input = input := by
  unfold urldecode_inplace
  induction input with
  | nil => simp [urldecode_ex]
  | cons b rest ih =>
    simp only [List.mem_cons, not_or] at h37 h43 h0
    obtain ⟨hb37, h37'⟩ := h37
    obtain ⟨hb43, h43'⟩ := h43
    obtain ⟨hb0, h0'⟩ := h0
    rcases hrec : urldecode_ex cfg rest with ⟨out, fl, code⟩
    have hout : out = rest := by
      have := ih h37' h43' h0'
      rw [hrec] at this
      exact this
    rw [urldecode_ex]
    simp [Ne.symm hb37, Ne.symm hb43, Ne.symm hb0, hrec, hout]

/-- Claim C7, counterexample to the claim as written: with
`nul_raw_terminates` set, the NUL-containing input `[0]` (which has no
`'%'` and no `'+'`) decodes to the empty string, not to itself. -/
theorem urldecode_inplace_nul_counterexample :
    (37 ∉ ([0] : List Nat)) ∧ (43 ∉ ([0] : List Nat)) ∧
      urldecode_inplace nulTermCfg [0] ≠ [0] := by
  refine ⟨by decide, by decide, ?_⟩
  have hz : urldecode_inplace nulTermCfg [0] = [] := by
    rw [urldecode_inplace]
    rw [urldecode_ex]
    simp [nulTermCfg]
  simp [hz]

/-- Witness for `urldecode_inplace_identity` at a concrete configuration
and input. -/
theorem urldecode_inplace_identity_witness :
    (37 ∉ ([104, 105] : List Nat)) ∧ (43 ∉ ([104, 105] : List Nat)) ∧
      (0 ∉ ([104, 105] : List Nat)) ∧
      urldecode_inplace nulTermCfg [104, 105] = [104, 105] :=
  ⟨by decide, by decide, by decide,
    urldecode_inplace_identity nulTermCfg [104, 105] (by decide) (by decide) (by decide)⟩

/-! ### C2: request header coalescing -/

theorem eqNoCase_refl (a : List Nat) : eqNoCase a a = true := by simp [eqNoCase]

theorem joinComma_append {vs : List (List Nat)} (h : vs ≠ []) (v : List Nat) :
    joinComma (vs ++ [v]) = joinComma vs ++ [44, 32] ++ v := by
  induction vs with
  | nil => exact absurd rfl h
  | cons a t ih =>
    cases t with
    | nil => rfl
    | cons b t' =>
      have step : joinComma ((a :: b :: t') ++ [v])
          = a ++ [44, 32] ++ joinComma ((b :: t') ++ [v]) := rfl
      rw [step, ih (by simp)]
      simp [joinComma, List.append_assoc]

/-- One insertion step on a transaction holding a single matching
non-Content-Length entry, when the repetition counter still allows it. -/
theorem process_step_existing (H J v : List Nat) (b : Bool) (r : Nat)
    (W : List LogCode) (hH : eqNoCase H contentLengthBytes = false)
    (hgo : (!b) = true ∨ r < 64) :
    process_request_header_generic ⟨[⟨H, J, b⟩], r, W⟩ H v
      = ⟨[⟨H, J ++ [44, 32] ++ v, true⟩], r + (if b then 1 else 0),
          W ++ (if !b then [.REQUEST_HEADER_REPETITION] else [])⟩ := by
  have hfind : getNocase [⟨H, J, b⟩] H = some ⟨H, J, b⟩ := by
    simp [getNocase, List.find?_cons_of_pos, eqNoCase_refl]
  simp only [process_request_header_generic, hfind]
  rw [if_pos hgo]
  simp [hH, updateFirstNocase, eqNoCase_refl]

/-- State invariant of repeated insertion of one non-Content-Length header:
a single coalesced entry, the repetition counter at `N - 2`, and exactly
one repetition warning once the header repeats. -/
theorem processHeaderRepetitions_inv (H : List Nat)
    (hH : eqNoCase H contentLengthBytes = false) :
    ∀ vs : List (List Nat), vs ≠ [] → vs.length ≤ 66 →
      processHeaderRepetitions H vs =
        ⟨[⟨H, joinComma vs, decide (2 ≤ vs.length)⟩], vs.length - 2,
          if 2 ≤ vs.length then [.REQUEST_HEADER_REPETITION] else []⟩ := by
  intro vs
  induction vs using List.reverseRecOn with
  | nil => intro h _; exact absurd rfl h
  | append_singleton ws v ih =>
    intro _ hlen
    have hfold : processHeaderRepetitions H (ws ++ [v])
        = process_request_header_generic (processHeaderRepetitions H ws) H v := by
      simp [processHeaderRepetitions, List.foldl_append]
    rcases ws with _ | ⟨w, ws'⟩
    · -- first occurrence: fresh entry
      simp [processHeaderRepetitions, process_request_header_generic, getNocase,
        joinComma]
    · have hws_ne : (w :: ws') ≠ [] := by simp
      have hlv : (w :: ws' ++ [v]).length = ws'.length + 2 := by simp
      have hlw : (w :: ws').length = ws'.length + 1 := by simp
      have hlen' : (w :: ws').length ≤ 66 := by
        rw [hlw]; rw [hlv] at hlen; omega
      rw [hfold, ih hws_ne hlen']
      have hgo : (!(decide (2 ≤ (w :: ws').length))) = true ∨
          (w :: ws').length - 2 < 64 := by
        by_cases h2 : 2 ≤ (w :: ws').length
        · right; rw [hlw]; rw [hlv] at hlen; omega
        · left
          rw [hlw] at h2 ⊢
          have h0 : ws'.length = 0 := by omega
          simp [h0]
      rw [process_step_existing H _ v _ _ _ hH hgo]
      rw [joinComma_append hws_ne v]
      have hj : (w :: ws') ++ [v] = w :: ws' ++ [v] := by simp
      rw [hj] at *
      simp only [ReqHdrState.mk.injEq, hlv, hlw]
      refine ⟨?_, ?_, ?_⟩
      · simp
      · by_cases h1 : ws'.length = 0
        · simp [h1]
        · have : (2 ≤ ws'.length + 1) := by omega
          simp [this]
          omega
      · by_cases h1 : ws'.length = 0
        · simp [h1]
        · have ha : (2 ≤ ws'.length + 1) := by omega
          have hb : (2 ≤ ws'.length + 2) := by omega
          simp [ha, hb]

/-- Claim C2, amended: for a header `H` other than Content-Length repeated
with values `v1..vN` in one transaction, as long as `N ≤ 66` (the
transaction-wide repetition counter, default 64, silently drops later
repeats), the single stored entry has value `v1 ++ ", " ++ ... ++ vN`
and carries FIELD_REPEATED; Content-Length is never coalesced (the
first value wins) and a value mismatch logs the ambiguous-C-L warning. -/
theorem request_header_coalescing (H : List Nat) (vs : List (List Nat))
    (hH : eqNoCase H contentLengthBytes = false)
    (hne : vs ≠ []) (hlen : vs.length ≤ 66) :
    (processHeaderRepetitions H vs).request_headers
        = [⟨H, joinComma vs, decide (2 ≤ vs.length)⟩] ∧
      ∀ v1 v2 : List Nat,
        (process_request_header_generic
            (process_request_header_generic ⟨[], 0, []⟩ contentLengthBytes v1)
            contentLengthBytes v2).request_headers
          = [⟨contentLengthBytes, v1, true⟩] ∧
        (parse_content_length v1 ≠ parse_content_length v2 →
          LogCode.DUPLICATE_CONTENT_LENGTH_FIELD_IN_REQUEST ∈
            (process_request_header_generic
              (process_request_header_generic ⟨[], 0, []⟩ contentLengthBytes v1)
              contentLengthBytes v2).warnings) := by
  refine ⟨?_, ?_⟩
  · rw [processHeaderRepetitions_inv H hH vs hne hlen]
  · intro v1 v2
    have hfirst : process_request_header_generic ⟨[], 0, []⟩ contentLengthBytes v1
        = ⟨[⟨contentLengthBytes, v1, false⟩], 0, []⟩ := by
      simp [process_request_header_generic, getNocase]
    constructor
    · rw [hfirst]
      simp [process_request_header_generic, getNocase, List.find?, eqNoCase_refl,
        updateFirstNocase]
    · intro hmis
      rw [hfirst]
      have hdec : decide (parse_content_length v1 ≠ parse_content_length v2) = true :=
        decide_eq_true hmis
      simp [process_request_header_generic, getNocase, List.find?, eqNoCase_refl,
        updateFirstNocase, hdec]

/-- Witness for `request_header_coalescing`: two repetitions of the header
`"X"` with values `"a"` and `"b"` coalesce to `"a, b"`. -/
theorem request_header_coalescing_witness :
    (processHeaderRepetitions [88] [[97], [98]]).request_headers
      = [⟨[88], joinComma [[97], [98]],
          decide (2 ≤ ([[97], [98]] : List (List Nat)).length)⟩] :=
  (request_header_coalescing [88] [[97], [98]] (by decide) (by decide) (by decide)).1

set_option maxRecDepth 8000 in
/-- Claim C2, counterexample to the claim as written: at `N = 67`
repetitions the transaction-wide repetition counter (64) silently drops
the last value, so the stored entry joins only the first 66 values. -/
theorem request_header_repetition_limit_counterexample :
    (processHeaderRepetitions [65] (List.replicate 67 [49])).request_headers
        = [⟨[65], joinComma (List.replicate 66 [49]), true⟩] ∧
      joinComma (List.replicate 66 [49]) ≠ joinComma (List.replicate 67 [49]) := by
  constructor
  · decide
  · decide

/-! ### C5: interim 100 Continue handling -/

/-- Claim C5: on a status-100 response with neither Transfer-Encoding nor
Content-Length, body determination discards the accumulated response
headers, returns the state to LINE and records `seen_100continue` when
it was not yet set; when it was already set, it fails with a stream
error and logs the already-seen anomaly. -/
theorem response_body_determine_100 (st : RespState)
    (h100 : st.response_status_number = some 100)
    (hte : getNocase st.response_headers teKey = none)
    (hcl : getNocase st.response_headers clKey = none) :
    (st.seen_100continue = false →
      (response_body_determine st).2 = .ok ∧
      (response_body_determine st).1.response_headers = [] ∧
      (response_body_determine st).1.response_state = .LINE ∧
      (response_body_determine st).1.response_progress = .LINE ∧
      (response_body_determine st).1.seen_100continue = true) ∧
    (st.seen_100continue = true →
      (response_body_determine st).2 = .err .ERROR ∧
      LogCode.CONTINUE_ALREADY_SEEN ∈ (response_body_determine st).1.logs) := by
  have e2xx : inRange st.response_status_number 200 299 = false := by
    rw [h100]; decide
  have e101 : eqNum st.response_status_number 101 = false := by
    rw [h100]; decide
  have e100 : eqNum st.response_status_number 100 = true := by
    rw [h100]; decide
  have e407 : eqNum st.response_status_number 407 = false := by
    rw [h100]; decide
  cases hM : st.request_method_number == HtpMethod.CONNECT
  · constructor
    · intro hseen
      simp [response_body_determine, responseConnectCheck,
        responseStatusSpecialCheck, hM, e2xx, e101, e100, e407, hte, hcl,
        hseen, RespState.log]
    · intro hseen
      simp [response_body_determine, responseConnectCheck,
        responseStatusSpecialCheck, hM, e2xx, e101, e100, e407, hte, hcl,
        hseen, RespState.log]
  · constructor
    · intro hseen
      simp [response_body_determine, responseConnectCheck,
        responseStatusSpecialCheck, hM, e2xx, e101, e100, e407, hte, hcl,
        hseen, RespState.log]
    · intro hseen
      simp [response_body_determine, responseConnectCheck,
        responseStatusSpecialCheck, hM, e2xx, e101, e100, e407, hte, hcl,
        hseen, RespState.log]

/-- Witness for `response_body_determine_100` at the concrete state
`interim100State`. -/
theorem response_body_determine_100_witness :
    ((interim100State.seen_100continue = false →
      (response_body_determine interim100State).2 = .ok ∧
      (response_body_determine interim100State).1.response_headers = [] ∧
      (response_body_determine interim100State).1.response_state = .LINE ∧
      (response_body_determine interim100State).1.response_progress = .LINE ∧
      (response_body_determine interim100State).1.seen_100continue = true) ∧
    (interim100State.seen_100continue = true →
      (response_body_determine interim100State).2 = .err .ERROR ∧
      LogCode.CONTINUE_ALREADY_SEEN ∈
        (response_body_determine interim100State).1.logs)) :=
  response_body_determine_100 interim100State (by decide) (by decide) (by decide)

/-! ### C4 and C8: response body framing selection -/

theorem eqNum_false_of_inRange_false (s : Option Nat)
    (h : inRange s 100 199 = false) :
    eqNum s 101 = false ∧ eqNum s 100 = false := by
  cases s with
  | none => constructor <;> rfl
  | some v =>
    simp only [inRange, decide_eq_false_iff_not, not_and, not_le] at h
    constructor <;> (simp [eqNum]; omega)

theorem responseConnectCheck_inr (st : RespState)
    (hConn : (st.request_method_number == HtpMethod.CONNECT) = true →
        inRange st.response_status_number 200 299 = false) :
    ∃ st', responseConnectCheck st = Sum.inr st' ∧
      st'.request_method_number = st.request_method_number ∧
      st'.response_state = st.response_state ∧
      st'.response_headers = st.response_headers ∧
      st'.response_status_number = st.response_status_number ∧
      st'.response_protocol_number = st.response_protocol_number := by
  unfold responseConnectCheck
  split_ifs with h1 h2 <;>
    first
    | exact ⟨_, rfl, rfl, rfl, rfl, rfl, rfl⟩
    | simp [hConn h1] at h2

theorem responseStatusSpecialCheck_inr_te (st : RespState)
    (cl_opt : Option Header) (te : Header) :
    ∃ st', responseStatusSpecialCheck st cl_opt (some te) = Sum.inr st' ∧
      st'.request_method_number = st.request_method_number ∧
      st'.response_state = st.response_state ∧
      st'.response_headers = st.response_headers ∧
      st'.response_status_number = st.response_status_number ∧
      st'.response_protocol_number = st.response_protocol_number := by
  unfold responseStatusSpecialCheck
  simp only [Option.isNone_some, Bool.false_and, Bool.and_false,
    Bool.false_eq_true, if_false]
  split_ifs <;>
    refine ⟨_, rfl, ?_, ?_, ?_, ?_, ?_⟩ <;>
      (repeat' split) <;> simp [RespState.log]

theorem responseStatusSpecialCheck_inr_status (st : RespState)
    (cl_opt te_opt : Option Header)
    (h101 : eqNum st.response_status_number 101 = false)
    (h100 : eqNum st.response_status_number 100 = false) :
    ∃ st', responseStatusSpecialCheck st cl_opt te_opt = Sum.inr st' ∧
      st'.request_method_number = st.request_method_number ∧
      st'.response_state = st.response_state ∧
      st'.response_headers = st.response_headers ∧
      st'.response_status_number = st.response_status_number ∧
      st'.response_protocol_number = st.response_protocol_number := by
  unfold responseStatusSpecialCheck
  simp only [h101, h100, Bool.false_and, Bool.false_eq_true, if_false]
  refine ⟨_, rfl, ?_, ?_, ?_, ?_, ?_⟩ <;>
    (repeat' split) <;> simp [RespState.log]

theorem response_body_determine_rest_chunked (st : RespState)
    (cl_opt : Option Header) (te : Header)
    (hHead : (st.request_method_number == HtpMethod.HEAD) = false)
    (hstate : st.response_state ≠ State.FINALIZE)
    (hchk : containsNoCase te.value chunkedBytes = true) :
    (response_body_determine_rest st cl_opt (some te)).2 = .ok ∧
    (response_body_determine_rest st cl_opt (some te)).1.response_transfer_coding
      = .CHUNKED ∧
    (response_body_determine_rest st cl_opt (some te)).1.response_state
      = .BODY_CHUNKED_LENGTH ∧
    (response_body_determine_rest st cl_opt (some te)).1.response_progress
      = .BODY ∧
    (cl_opt ≠ none →
      (response_body_determine_rest st cl_opt (some te)).1.flags.request_smuggling
        = true) ∧
    (protoLt st.response_protocol_number .V1_1 = true →
      LogCode.RESPONSE_CHUNKED_OLD_PROTO
        ∈ (response_body_determine_rest st cl_opt (some te)).1.logs) := by
  rcases hct : getNocase st.response_headers ctKey with _ | ct <;>
    simp [response_body_determine_rest, hHead, hchk, hct, hstate,
      RespState.log, state_response_headers] <;>
    split_ifs <;>
    simp_all [RespState.log, state_response_headers]

/-- Claim C4 (amended): outside the HEAD and CONNECT-2xx no-body paths,
whenever the Transfer-Encoding response header value contains "chunked"
(case-insensitively), body determination succeeds with transfer coding
CHUNKED and enters the chunked-length state, even with a Content-Length
header also present; with both headers the request-smuggling flag is
set, and a pre-1.1 protocol only adds a logged warning. -/
theorem response_body_determine_chunked (st : RespState) (te : Header)
    (hConn : (st.request_method_number == HtpMethod.CONNECT) = true →
        inRange st.response_status_number 200 299 = false)
    (hHead : (st.request_method_number == HtpMethod.HEAD) = false)
    (hstate : st.response_state ≠ State.FINALIZE)
    (hte : getNocase st.response_headers teKey = some te)
    (hchk : containsNoCase te.value chunkedBytes = true) :
    (response_body_determine st).2 = .ok ∧
    (response_body_determine st).1.response_transfer_coding = .CHUNKED ∧
    (response_body_determine st).1.response_state = .BODY_CHUNKED_LENGTH ∧
    (response_body_determine st).1.response_progress = .BODY ∧
    (getNocase st.response_headers clKey ≠ none →
      (response_body_determine st).1.flags.request_smuggling = true) ∧
    (protoLt st.response_protocol_number .V1_1 = true →
      LogCode.RESPONSE_CHUNKED_OLD_PROTO ∈ (response_body_determine st).1.logs) := by
  obtain ⟨st1, hA, hm1, hs1, hh1, hn1, hp1⟩ := responseConnectCheck_inr st hConn
  obtain ⟨st2, hB, hm2, hs2, hh2, hn2, hp2⟩ :=
    responseStatusSpecialCheck_inr_te st1 (getNocase st.response_headers clKey) te
  have hkey : response_body_determine st
      = response_body_determine_rest st2 (getNocase st.response_headers clKey)
          (some te) := by
    simp only [response_body_determine, hA]
    rw [hh1, hte, hB]
  have hHead2 : (st2.request_method_number == HtpMethod.HEAD) = false := by
    rw [hm2, hm1]; exact hHead
  have hstate2 : st2.response_state ≠ State.FINALIZE := by
    rw [hs2, hs1]; exact hstate
  obtain ⟨c1, c2, c3, c4, c5, c6⟩ :=
    response_body_determine_rest_chunked st2 (getNocase st.response_headers clKey)
      te hHead2 hstate2 hchk
  rw [hkey]
  refine ⟨c1, c2, c3, c4, c5, fun hp => c6 ?_⟩
  rw [hp2, hp1]; exact hp

/-- Counterexample to claim C4 as written: for a HEAD transaction whose
response carries `Transfer-Encoding: chunked`, body determination sets
transfer coding NO_BODY and finalizes instead of entering the
chunked-length state. -/
theorem response_body_determine_chunked_counterexample :
    getNocase headChunkedState.response_headers teKey
        = some ⟨teKey, chunkedBytes, false⟩ ∧
      containsNoCase chunkedBytes chunkedBytes = true ∧
      (response_body_determine headChunkedState).1.response_transfer_coding
        = .NO_BODY ∧
      (response_body_determine headChunkedState).1.response_state = .FINALIZE ∧
      (response_body_determine headChunkedState).2 = .ok := by
  refine ⟨by decide, by decide, ?_, ?_, ?_⟩ <;> decide

/-- Witness for `response_body_determine_chunked` at the concrete state
`determineChunkedState` (Transfer-Encoding chunked plus Content-Length,
HTTP/1.0). -/
theorem response_body_determine_chunked_witness :
    (response_body_determine determineChunkedState).2 = .ok ∧
    (response_body_determine determineChunkedState).1.response_transfer_coding
      = .CHUNKED ∧
    (response_body_determine determineChunkedState).1.response_state
      = .BODY_CHUNKED_LENGTH ∧
    (response_body_determine determineChunkedState).1.response_progress = .BODY ∧
    (getNocase determineChunkedState.response_headers clKey ≠ none →
      (response_body_determine determineChunkedState).1.flags.request_smuggling
        = true) ∧
    (protoLt determineChunkedState.response_protocol_number .V1_1 = true →
      LogCode.RESPONSE_CHUNKED_OLD_PROTO
        ∈ (response_body_determine determineChunkedState).1.logs) :=
  response_body_determine_chunked determineChunkedState ⟨teKey, chunkedBytes, false⟩
    (by decide) (by decide) (by decide) (by decide) (by decide)

theorem response_body_determine_rest_byteranges (st : RespState)
    (te_opt : Option Header) (ct : Header)
    (hHead : (st.request_method_number == HtpMethod.HEAD) = false)
    (hstate : st.response_state ≠ State.FINALIZE)
    (hnobody : (inRange st.response_status_number 100 199
        || eqNum st.response_status_number 204
        || eqNum st.response_status_number 304) = false)
    (hte : (match te_opt with
        | some te => containsNoCase te.value chunkedBytes
        | none => false) = false)
    (hct : getNocase st.response_headers ctKey = some ct)
    (hmb : containsNoCase (responseMimeBytes ct.value) multipartByterangesBytes
        = true) :
    (response_body_determine_rest st none te_opt).2 = .err .ERROR ∧
    LogCode.RESPONSE_MULTIPART_BYTERANGES
      ∈ (response_body_determine_rest st none te_opt).1.logs := by
  rcases te_opt with _ | te <;>
    simp_all [response_body_determine_rest, hHead, hnobody, hstate, hct, hmb,
      RespState.log, state_response_headers]

/-- Claim C8 (amended): when no chunked Transfer-Encoding and no
Content-Length frames the body (and none of the no-body exemptions —
HEAD, CONNECT-2xx, 1xx/204/304 — applies), a Content-Type whose mime
type contains "multipart/byteranges" makes body determination fail with
a stream error and log the multipart-byteranges anomaly. -/
theorem response_body_determine_byteranges (st : RespState) (ct : Header)
    (hConn : (st.request_method_number == HtpMethod.CONNECT) = true →
        inRange st.response_status_number 200 299 = false)
    (hHead : (st.request_method_number == HtpMethod.HEAD) = false)
    (hstate : st.response_state ≠ State.FINALIZE)
    (hnobody : (inRange st.response_status_number 100 199
        || eqNum st.response_status_number 204
        || eqNum st.response_status_number 304) = false)
    (hcl : getNocase st.response_headers clKey = none)
    (hte : (match getNocase st.response_headers teKey with
        | some te => containsNoCase te.value chunkedBytes
        | none => false) = false)
    (hct : getNocase st.response_headers ctKey = some ct)
    (hmb : containsNoCase (responseMimeBytes ct.value) multipartByterangesBytes
        = true) :
    (response_body_determine st).2 = .err .ERROR ∧
    LogCode.RESPONSE_MULTIPART_BYTERANGES
      ∈ (response_body_determine st).1.logs := by
  have h1xx : inRange st.response_status_number 100 199 = false := by
    rcases Bool.or_eq_false_iff.mp hnobody with ⟨h, -⟩
    rcases Bool.or_eq_false_iff.mp h with ⟨h', -⟩
    exact h'
  obtain ⟨h101, h100⟩ := eqNum_false_of_inRange_false st.response_status_number h1xx
  obtain ⟨st1, hA, hm1, hs1, hh1, hn1, hp1⟩ := responseConnectCheck_inr st hConn
  obtain ⟨st2, hB, hm2, hs2, hh2, hn2, hp2⟩ :=
    responseStatusSpecialCheck_inr_status st1 none
      (getNocase st.response_headers teKey)
      (by rw [hn1]; exact h101) (by rw [hn1]; exact h100)
  have hkey : response_body_determine st
      = response_body_determine_rest st2 none
          (getNocase st.response_headers teKey) := by
    simp only [response_body_determine, hA]
    rw [hh1, hcl, hB]
  rw [hkey]
  refine response_body_determine_rest_byteranges st2
    (getNocase st.response_headers teKey) ct ?_ ?_ ?_ hte ?_ hmb
  · rw [hm2, hm1]; exact hHead
  · rw [hs2, hs1]; exact hstate
  · rw [hn2, hn1]; exact hnobody
  · rw [hh2, hh1]; exact hct

/-- Counterexample to claim C8 as written: a response whose Content-Type
contains "multipart/byteranges" but which also carries a Content-Length
header is framed by the Content-Length without any error. -/
theorem response_body_determine_byteranges_counterexample :
    containsNoCase
        (responseMimeBytes multipartByterangesBytes) multipartByterangesBytes
      = true ∧
    getNocase byterangesClState.response_headers ctKey
      = some ⟨ctKey, multipartByterangesBytes, false⟩ ∧
    (response_body_determine byterangesClState).2 = .ok ∧
    (response_body_determine byterangesClState).1.response_state
      = .BODY_IDENTITY_CL_KNOWN := by
  refine ⟨by decide, by decide, ?_, ?_⟩ <;> decide

/-- Witness for `response_body_determine_byteranges` at the concrete
state `byterangesNoClState`. -/
theorem response_body_determine_byteranges_witness :
    (response_body_determine byterangesNoClState).2 = .err .ERROR ∧
    LogCode.RESPONSE_MULTIPART_BYTERANGES
      ∈ (response_body_determine byterangesNoClState).1.logs :=
  response_body_determine_byteranges byterangesNoClState
    ⟨ctKey, multipartByterangesBytes, false⟩
    (by decide) (by decide) (by decide) (by decide) (by decide) (by decide)
    (by decide) (by decide)

/-! ### C6: invalid chunk-length lines -/

theorem check_response_buffer_limit_ok (st : RespState) (len : Nat)
    (h : (check_response_buffer_limit st len).2 = .ok) :
    check_response_buffer_limit st len = (st, .ok) := by
  by_cases h1 : (st.response_curr_len == 0 || len == 0) = true
  · simp [check_response_buffer_limit, h1]
  · by_cases h2 : st.response_buf.length + len +
        (match st.response_header with | some hd => hd.length | none => 0)
        > st.field_limit
    · exfalso
      simp [check_response_buffer_limit, h1, h2] at h
    · simp [check_response_buffer_limit, h1, h2]

/-- Claim C6 (amended): a complete chunk-length line whose bytes do not
parse as a 32-bit hexadecimal chunk length does not produce a stream
error, provided buffering the line does not exceed the field limit: the
transfer coding becomes IDENTITY, the state moves to
BODY_IDENTITY_STREAM_CLOSE and the invalid-chunk-length anomaly is
logged. -/
theorem response_body_chunked_length_invalid (st : RespState)
    (data remaining line : List Nat)
    (hhd : data.head? ≠ some 10)
    (hlf : takeTillLf data = some (remaining, line))
    (hbuf : st.response_buf.isEmpty = true ∨
      (check_response_buffer_limit
        { st with cursor := st.cursor + line.length } line.length).2 = .ok)
    (hparse : parse_chunked_length (st.response_buf ++ line) = .error ()) :
    (response_body_chunked_length st data).2 = .ok ∧
    (response_body_chunked_length st data).1.response_state
      = .BODY_IDENTITY_STREAM_CLOSE ∧
    (response_body_chunked_length st data).1.response_transfer_coding
      = .IDENTITY ∧
    LogCode.INVALID_RESPONSE_CHUNK_LEN
      ∈ (response_body_chunked_length st data).1.logs := by
  rcases data with _ | ⟨b, rem⟩
  · exact Option.noConfusion
      ((show takeTillLf ([] : List Nat) = none from rfl) ▸ hlf)
  · have hb : ¬ b = 10 := by
      intro h
      exact hhd (by simp [h])
    unfold response_body_chunked_length
    rw [if_neg hb]
    unfold response_body_chunked_length_line
    rw [hlf]
    by_cases hE : st.response_buf.isEmpty = true
    · simp [hE, hparse, RespState.log]
    · rcases hbuf with h | h
      · exact absurd h hE
      · have hceq := check_response_buffer_limit_ok _ _ h
        simp [hE, hceq, hparse, RespState.log]

/-- Counterexample to claim C6 as written: with a pending buffered byte
and a tiny field limit, the very same invalid chunk-length line is
rejected with a stream error by the buffer-limit check before the
identity-until-close fallback is reached. -/
theorem response_body_chunked_length_invalid_counterexample :
    takeTillLf [122, 122, 10] = some ([], [122, 122, 10]) ∧
    parse_chunked_length
        (tightLimitChunkState.response_buf ++ [122, 122, 10]) = .error () ∧
    (response_body_chunked_length tightLimitChunkState [122, 122, 10]).2
      = .err .ERROR ∧
    LogCode.RESPONSE_FIELD_TOO_LONG
      ∈ (response_body_chunked_length tightLimitChunkState
          [122, 122, 10]).1.logs := by
  refine ⟨by decide, by rfl, ?_, ?_⟩ <;> decide

/-- Witness for `response_body_chunked_length_invalid` on the line
`"q\n"` at `chunkedBodyState`. -/
theorem response_body_chunked_length_invalid_witness :
    (response_body_chunked_length chunkedBodyState [113, 10]).2 = .ok ∧
    (response_body_chunked_length chunkedBodyState [113, 10]).1.response_state
      = .BODY_IDENTITY_STREAM_CLOSE ∧
    (response_body_chunked_length chunkedBodyState
        [113, 10]).1.response_transfer_coding = .IDENTITY ∧
    LogCode.INVALID_RESPONSE_CHUNK_LEN
      ∈ (response_body_chunked_length chunkedBodyState [113, 10]).1.logs :=
  response_body_chunked_length_invalid chunkedBodyState [113, 10] [] [113, 10]
    (by decide) (by decide) (Or.inl (by decide)) (by rfl)

/-! ### C1: chunk-splitting equivalence -/

set_option maxRecDepth 4000 in
/-- Claim C1, refuted: feeding the invalid chunk-length bytes `"q\n"` to
`response_data` as one chunk yields `response_message_len = 4`, while
feeding the identical bytes split as `"q"` then `"\n"` yields 2, even
though both runs end in the same stream state and parser state — the
wire byte count, an observable of the transaction, depends on the chunk
boundaries. -/
theorem response_data_chunk_split_divergence :
    ((response_data 8 chunkedBodyState [113, 10]).map
        (fun r => r.1.response_message_len) = some 4) ∧
    (((response_data 8 chunkedBodyState [113]).bind
        (fun r => response_data 8 r.1 [10])).map
        (fun r => r.1.response_message_len) = some 2) ∧
    ((response_data 8 chunkedBodyState [113, 10]).map (fun r => r.2)
      = ((response_data 8 chunkedBodyState [113]).bind
          (fun r => response_data 8 r.1 [10])).map (fun r => r.2)) ∧
    ((response_data 8 chunkedBodyState [113, 10]).map
        (fun r => r.1.response_state)
      = ((response_data 8 chunkedBodyState [113]).bind
          (fun r => response_data 8 r.1 [10])).map
          (fun r => r.1.response_state)) := by
  refine ⟨?_, ?_, ?_, ?_⟩ <;> decide

end Htp

